import Mathlib

/-!
# zoraauth: OAuth 2.0 device authorization flow

A shallow embedding of `cmd/zoraauth/main.go`.

* Go's `int` is taken at its 64-bit width (amd64, arm64); `time.Duration` is an
  `int64` count of nanoseconds on every target.  Both wrap on overflow.
* The outside world is explicit: the identity provider is an outcome for the
  device-code request and one outcome per poll attempt, the file system is the
  outcome of a write.  What the program does to the world is recorded as a
  trace of effects, in program order.
* The polling loop has no bound of its own, so it is run with a fuel that
  counts loop iterations; a run that is still polling when the fuel is spent
  has no result.
* `encoding/json` and `gopkg.in/yaml.v2` are libraries outside the repository.
  Their text layers (JSON syntax check, YAML emitter and scanner) are not
  modelled: a body is given by the JSON value it denotes and a YAML document by
  its node tree.  How values are stored into the program's structs follows the
  struct tags of the source and the documented rules of both libraries.
-/

namespace ZoraAuth

/-! ## Machine integers -/

/-- Smallest value of a 64-bit Go `int`. -/
def minInt64 : Int := -9223372036854775808

/-- Largest value of a 64-bit Go `int`. -/
def maxInt64 : Int := 9223372036854775807

/-- Two's complement wrap-around of 64-bit signed arithmetic. -/
def wrapInt64 (x : Int) : Int :=
  (x + 9223372036854775808) % 18446744073709551616 - 9223372036854775808

/-- Constant `time.Second`, in nanoseconds. -/
def second : Int := 1000000000

/-- Constant `http.StatusOK`. -/
def statusOK : Int := 200

/-! ## JSON values and `json.Unmarshal` into the two response structs -/

/-- A JSON number literal: Go stores it in an `int` field only when the literal
has no fraction and no exponent (`strconv.ParseInt`). -/
inductive JNumber where
  | integer (v : Int)
  | fractional
deriving Repr

/-- A JSON value; an object keeps its members in document order, duplicates
included. -/
inductive JValue where
  | null
  | bool (b : Bool)
  | number (n : JNumber)
  | string (s : String)
  | array (items : List JValue)
  | object (members : List (String × JValue))

/-- Whether the value is the literal `null`. -/
def JValue.isNull : JValue → Bool
  | .null => true
  | _ => false

/-- Case folding of one character of a member name.  `encoding/json` folds
with `unicode.SimpleFold`; on names that can match the ASCII tags of this
program that is ASCII upper-casing plus the two non-ASCII characters that fold
to ASCII letters (U+017F to `S`, U+212A to `K`). -/
def foldRune (c : Char) : Char :=
  if c = Char.ofNat 0x17F then 'S'
  else if c = Char.ofNat 0x212A then 'K'
  else c.toUpper

/-- Folded form of a member name (`foldName`). -/
def foldName (s : String) : String := String.mk (s.toList.map foldRune)

/-- Storing a JSON value into a Go `string` field: `null` leaves the field as
it is, a string is stored, anything else is an `UnmarshalTypeError`. -/
def decodeString (v : JValue) (old : String) : Option String :=
  match v with
  | .null => some old
  | .string s => some s
  | _ => none

/-- Storing a JSON value into a Go `int` field: `null` leaves the field as it
is, an integer literal in range is stored, anything else (a fraction, an
exponent, an out-of-range literal, a non-number) is an `UnmarshalTypeError`. -/
def decodeInt (v : JValue) (old : Int) : Option Int :=
  match v with
  | .null => some old
  | .number (.integer n) => if minInt64 ≤ n ∧ n ≤ maxInt64 then some n else none
  | _ => none

/-- Struct to parse the device code response. -/
structure DeviceCodeResponse where
  DeviceCode : String
  UserCode : String
  VerificationURI : String
  VerificationURIComplete : String
  ExpiresIn : Int
  Interval : Int
deriving DecidableEq, Repr

/-- Struct to parse the token response. -/
structure TokenResponse where
  AccessToken : String
  RefreshToken : String
  TokenType : String
deriving DecidableEq, Repr

/-- The credentials written to the output file. -/
structure TokenData where
  Domain : String
  ClientID : String
  AccessToken : String
  RefreshToken : String
  TokenType : String
deriving DecidableEq, Repr

/-- The container written to the output file; the pointer may be nil. -/
structure ZoraAuthResponse where
  ZoraAuth : Option TokenData
deriving DecidableEq, Repr

/-- The fields of `DeviceCodeResponse`, in declaration order. -/
inductive DeviceField where
  | deviceCode
  | userCode
  | verificationURI
  | verificationURIComplete
  | expiresIn
  | interval
deriving DecidableEq, Repr

/-- The `json:"..."` tag of each field of `DeviceCodeResponse`. -/
def DeviceField.tag : DeviceField → String
  | .deviceCode => "device_code"
  | .userCode => "user_code"
  | .verificationURI => "verification_URI"
  | .verificationURIComplete => "verification_URI_complete"
  | .expiresIn => "expires_in"
  | .interval => "interval"

/-- All fields of `DeviceCodeResponse`, in declaration order. -/
def DeviceField.all : List DeviceField :=
  [.deviceCode, .userCode, .verificationURI, .verificationURIComplete, .expiresIn, .interval]

/-- The field a member name is stored into: an exact match of the tag is
preferred, a case-insensitive match is accepted, other names are skipped. -/
def DeviceField.lookup (key : String) : Option DeviceField :=
  match DeviceField.all.find? (fun f => f.tag = key) with
  | some f => some f
  | none => DeviceField.all.find? (fun f => foldName f.tag = foldName key)

/-- Storing one object member into a `DeviceCodeResponse`. -/
def DeviceCodeResponse.setMember (r : DeviceCodeResponse) (key : String) (v : JValue) :
    Option DeviceCodeResponse :=
  match DeviceField.lookup key with
  | none => some r
  | some .deviceCode => (decodeString v r.DeviceCode).map (fun s => { r with DeviceCode := s })
  | some .userCode => (decodeString v r.UserCode).map (fun s => { r with UserCode := s })
  | some .verificationURI =>
    (decodeString v r.VerificationURI).map (fun s => { r with VerificationURI := s })
  | some .verificationURIComplete =>
    (decodeString v r.VerificationURIComplete).map
      (fun s => { r with VerificationURIComplete := s })
  | some .expiresIn => (decodeInt v r.ExpiresIn).map (fun n => { r with ExpiresIn := n })
  | some .interval => (decodeInt v r.Interval).map (fun n => { r with Interval := n })

/-- Storing the members of an object, in document order.  Go carries on after
a type error and reports the first one at the end; both callers drop the
struct when an error is reported, so the first error ends the model's pass. -/
def DeviceCodeResponse.setMembers :
    List (String × JValue) → DeviceCodeResponse → Option DeviceCodeResponse
  | [], r => some r
  | (k, v) :: rest, r =>
    match r.setMember k v with
    | none => none
    | some r1 => DeviceCodeResponse.setMembers rest r1

/-- The zero value of `DeviceCodeResponse` (`var deviceCodeResponse`). -/
def DeviceCodeResponse.zero : DeviceCodeResponse :=
  { DeviceCode := "", UserCode := "", VerificationURI := "", VerificationURIComplete := "",
    ExpiresIn := 0, Interval := 0 }

/-- Call `json.Unmarshal(body, &deviceCodeResponse)` on a body denoting `v`:
`none` is a returned error. -/
def unmarshalDeviceCode (v : JValue) : Option DeviceCodeResponse :=
  match v with
  | .null => some DeviceCodeResponse.zero
  | .object ms => DeviceCodeResponse.setMembers ms DeviceCodeResponse.zero
  | _ => none

/-- The fields of `TokenResponse`, in declaration order. -/
inductive TokenField where
  | accessToken
  | refreshToken
  | tokenType
deriving DecidableEq, Repr

/-- The `json:"..."` tag of each field of `TokenResponse`. -/
def TokenField.tag : TokenField → String
  | .accessToken => "access_token"
  | .refreshToken => "refresh_token"
  | .tokenType => "token_type"

/-- All fields of `TokenResponse`, in declaration order. -/
def TokenField.all : List TokenField := [.accessToken, .refreshToken, .tokenType]

/-- The field a member name is stored into (exact match, then folded match). -/
def TokenField.lookup (key : String) : Option TokenField :=
  match TokenField.all.find? (fun f => f.tag = key) with
  | some f => some f
  | none => TokenField.all.find? (fun f => foldName f.tag = foldName key)

/-- Storing one object member into a `TokenResponse`. -/
def TokenResponse.setMember (r : TokenResponse) (key : String) (v : JValue) :
    Option TokenResponse :=
  match TokenField.lookup key with
  | none => some r
  | some .accessToken => (decodeString v r.AccessToken).map (fun s => { r with AccessToken := s })
  | some .refreshToken =>
    (decodeString v r.RefreshToken).map (fun s => { r with RefreshToken := s })
  | some .tokenType => (decodeString v r.TokenType).map (fun s => { r with TokenType := s })

/-- Storing the members of an object into a `TokenResponse`, in document
order. -/
def TokenResponse.setMembers : List (String × JValue) → TokenResponse → Option TokenResponse
  | [], r => some r
  | (k, v) :: rest, r =>
    match r.setMember k v with
    | none => none
    | some r1 => TokenResponse.setMembers rest r1

/-- The zero value of `TokenResponse` (`var tokenResponse`). -/
def TokenResponse.zero : TokenResponse :=
  { AccessToken := "", RefreshToken := "", TokenType := "" }

/-- Call `json.Unmarshal(body, &tokenResponse)` on a body denoting `v`. -/
def unmarshalToken (v : JValue) : Option TokenResponse :=
  match v with
  | .null => some TokenResponse.zero
  | .object ms => TokenResponse.setMembers ms TokenResponse.zero
  | _ => none

/-! ## The world: HTTP outcomes, effects, errors -/

/-- What reading and parsing a response body gives. -/
inductive Body where
  | unreadable
  | malformed
  | json (v : JValue)

/-- The part of `http.Response` the program looks at. -/
structure Response where
  StatusCode : Int
  Status : String
  Body : Body

/-- Outcome of one `http.Post`: a transport error or a response. -/
inductive HttpOutcome where
  | failure
  | response (r : Response)

/-- The errors the program builds.  The text of a wrapped cause (`%w`) comes
from the libraries and is left out. -/
inductive Err where
  | requestFailed
  | unexpectedStatus (status : String)
  | readFailed
  | parseFailed
  | pollFailed
  | expired
  | marshalFailed
  | writeFailed
deriving DecidableEq, Repr

/-- The message of each error, up to the wrapped cause. -/
def Err.message : Err → String
  | .requestFailed => "failed to request device code"
  | .unexpectedStatus status => "unexpected response status: " ++ status
  | .readFailed => "failed to read response body"
  | .parseFailed => "failed to parse JSON response"
  | .pollFailed => "failed to poll for token"
  | .expired => "failed to retrieve tokens within the expiration time"
  | .marshalFailed => "failed to marshal tokens to YAML"
  | .writeFailed => "failed to write tokens to file"

/-- A node of a YAML document. -/
inductive YamlNode where
  | null
  | scalar (s : String)
  | mapping (entries : List (String × YamlNode))

/-- What the program does to the world. -/
inductive Effect where
  | post (url : String) (contentType : String) (data : String)
  | readBody
  | sleep (d : Int)
  | print (s : String)
  | usage
  | writeFile (name : String) (doc : YamlNode) (perm : Nat)

/-- Whether an effect is an HTTP request. -/
def Effect.isPost : Effect → Bool
  | .post _ _ _ => true
  | _ => false

/-- Whether an effect is a call of `time.Sleep`. -/
def Effect.isSleep : Effect → Bool
  | .sleep _ => true
  | _ => false

/-- Nanoseconds an effect pauses the process for: `time.Sleep` returns at once
for a zero or negative duration. -/
def Effect.pause : Effect → Int
  | .sleep d => max 0 d
  | _ => 0

/-- Number of HTTP requests in a trace. -/
def posts (tr : List Effect) : Nat := tr.countP Effect.isPost

/-- Number of calls of `time.Sleep` in a trace. -/
def sleeps (tr : List Effect) : Nat := tr.countP Effect.isSleep

/-- Total nanoseconds slept in a trace. -/
def sleptNanos (tr : List Effect) : Int := (tr.map Effect.pause).sum

/-- Whether an effect reads a response body. -/
def Effect.isReadBody : Effect → Bool
  | .readBody => true
  | _ => false

/-- Number of times a response body is read in a trace. -/
def bodyReads (tr : List Effect) : Nat := tr.countP Effect.isReadBody

/-- The permission bits of the file writes of a trace, in order. -/
def writeModes : List Effect → List Nat
  | [] => []
  | .writeFile _ _ perm :: rest => perm :: writeModes rest
  | _ :: rest => writeModes rest

/-- The documents written by a trace, in order. -/
def writtenDocs : List Effect → List YamlNode
  | [] => []
  | .writeFile _ doc _ :: rest => doc :: writtenDocs rest
  | _ :: rest => writtenDocs rest

/-- The content type of both requests. -/
def formContentType : String := "application/x-www-form-urlencoded"

/-! ## requestDeviceCode -/

/-- Function to request the device code: the result and the effects, given the
outcome of the one `http.Post`. -/
def requestDeviceCode (domain clientID audience : String) (outcome : HttpOutcome) :
    Except Err DeviceCodeResponse × List Effect :=
  let url := "https://" ++ domain ++ "/oauth/device/code"
  let data := "client_id=" ++ clientID ++
    "&scope=profile%20email%20offline_access%20openid&audience=" ++ audience
  let sent := [Effect.post url formContentType data]
  match outcome with
  | .failure => (.error .requestFailed, sent)
  | .response resp =>
    if resp.StatusCode ≠ statusOK then
      (.error (.unexpectedStatus resp.Status), sent)
    else
      match resp.Body with
      | .unreadable => (.error .readFailed, sent ++ [Effect.readBody])
      | .malformed => (.error .parseFailed, sent ++ [Effect.readBody])
      | .json v =>
        match unmarshalDeviceCode v with
        | none => (.error .parseFailed, sent ++ [Effect.readBody])
        | some deviceCodeResponse => (.ok deviceCodeResponse, sent ++ [Effect.readBody])

/-! ## pollForToken -/

/-- A run of the polling loop: its result (`none` while still polling), the
value of `timer` where it stopped, and its effects. -/
structure PollRun where
  result : Option (Except Err TokenData)
  timer : Int
  trace : List Effect

/-- The loop `for timer < expiresIn` of `pollForToken`, from a given value of
`timer` and with `attempt` requests already made; `fuel` bounds the number of
iterations. -/
def pollLoop (domain clientID url data : String) (interval expiresIn : Int)
    (provider : Nat → HttpOutcome) : Nat → Int → Nat → PollRun
  | 0, timer, _ =>
    if timer < expiresIn then ⟨none, timer, []⟩ else ⟨some (.error .expired), timer, []⟩
  | fuel + 1, timer, attempt =>
    if timer < expiresIn then
      let step := [Effect.sleep (wrapInt64 (interval * second)),
        Effect.post url formContentType data]
      let timer1 := wrapInt64 (timer + interval)
      match provider attempt with
      | .failure => ⟨some (.error .pollFailed), timer1, step⟩
      | .response resp =>
        if resp.StatusCode = statusOK then
          match resp.Body with
          | .unreadable => ⟨some (.error .readFailed), timer1, step ++ [Effect.readBody]⟩
          | .malformed => ⟨some (.error .parseFailed), timer1, step ++ [Effect.readBody]⟩
          | .json v =>
            match unmarshalToken v with
            | none => ⟨some (.error .parseFailed), timer1, step ++ [Effect.readBody]⟩
            | some tokenResponse =>
              ⟨some (.ok
                { Domain := domain
                  ClientID := clientID
                  AccessToken := tokenResponse.AccessToken
                  RefreshToken := tokenResponse.RefreshToken
                  TokenType := tokenResponse.TokenType }),
                timer1, step ++ [Effect.readBody]⟩
        else
          let rest := pollLoop domain clientID url data interval expiresIn provider
            fuel timer1 (attempt + 1)
          ⟨rest.result, rest.timer, step ++ rest.trace⟩
    else ⟨some (.error .expired), timer, []⟩

/-- Function to poll for token; `provider n` is the outcome of the request
number `n`, counted from 0. -/
def pollForToken (domain clientID deviceCode : String) (interval expiresIn : Int)
    (provider : Nat → HttpOutcome) (fuel : Nat) : PollRun :=
  let url := "https://" ++ domain ++ "/oauth/token"
  let data := "client_id=" ++ clientID ++
    "&grant_type=urn:ietf:params:oauth:grant-type:device_code&device_code=" ++ deviceCode
  pollLoop domain clientID url data interval expiresIn provider fuel 0 0

/-! ## writeTokensToYaml -/

/-- Node tree `yaml.Marshal` builds for a `TokenData`: the fields in
declaration order under their `yaml:"..."` tags, none omitted. -/
def TokenData.toYaml (t : TokenData) : YamlNode :=
  .mapping
    [("domain", .scalar t.Domain),
     ("clientId", .scalar t.ClientID),
     ("accessToken", .scalar t.AccessToken),
     ("refreshToken", .scalar t.RefreshToken),
     ("tokenType", .scalar t.TokenType)]

/-- Call `yaml.Marshal(oauth)`: one top-level key, a nil pointer is `null`.
Strings always marshal, so no error is returned. -/
def yamlMarshal (oauth : ZoraAuthResponse) : Except Err YamlNode :=
  .ok (.mapping
    [("zoraauth",
      match oauth.ZoraAuth with
      | none => .null
      | some t => t.toYaml)])

/-- The permission bits the source passes to `os.WriteFile`. -/
def filePerm : Nat := 0o644

/-- Function to write token information to a YAML file; `fsOk` tells whether
the file system accepts the write. -/
def writeTokensToYaml (fsOk : String → YamlNode → Nat → Bool) (filename : String)
    (tokens : Option TokenData) : Except Err Unit × List Effect :=
  let oauth : ZoraAuthResponse := ⟨tokens⟩
  match yamlMarshal oauth with
  | .error _ => (.error .marshalFailed, [])
  | .ok yamlData =>
    if fsOk filename yamlData filePerm then
      (.ok (), [Effect.writeFile filename yamlData filePerm])
    else
      (.error .writeFailed, [Effect.writeFile filename yamlData filePerm])

/-! ## main -/

/-- The parsed command line. -/
structure Flags where
  domain : String
  clientID : String
  audience : String
  outputFile : String

/-- The world `main` runs in. -/
structure World where
  deviceCode : HttpOutcome
  poll : Nat → HttpOutcome
  fsOk : String → YamlNode → Nat → Bool

/-- A run of `main`: the exit code (`none` while still polling) and the
effects. -/
structure MainRun where
  exitCode : Option Nat
  trace : List Effect

/-- The entry point, after `pflag.Parse()`. -/
def main (flags : Flags) (world : World) (fuel : Nat) : MainRun :=
  if flags.domain = "" ∨ flags.clientID = "" ∨ flags.audience = "" then
    ⟨some 1, [Effect.print "Error: domain, client-id, and audience must be provided.\n",
      Effect.usage]⟩
  else
    let start := [Effect.print "Initiating Device Authorization Flow...\n"]
    match requestDeviceCode flags.domain flags.clientID flags.audience world.deviceCode with
    | (.error err, tr1) =>
      ⟨some 1, start ++ tr1 ++ [Effect.print ("Error: " ++ err.message ++ "\n")]⟩
    | (.ok deviceInfo, tr1) =>
      let shown := [Effect.print ("Please visit " ++ deviceInfo.VerificationURI ++
        " and enter code: " ++ deviceInfo.UserCode ++ ", or visit: " ++
        deviceInfo.VerificationURIComplete ++ "\n")]
      let run := pollForToken flags.domain flags.clientID deviceInfo.DeviceCode
        deviceInfo.Interval deviceInfo.ExpiresIn world.poll fuel
      match run.result with
      | none => ⟨none, start ++ tr1 ++ shown ++ run.trace⟩
      | some (.error err) =>
        ⟨some 2, start ++ tr1 ++ shown ++ run.trace ++
          [Effect.print ("Error: " ++ err.message ++ "\n")]⟩
      | some (.ok tokens) =>
        match writeTokensToYaml world.fsOk flags.outputFile (some tokens) with
        | (.error err, tr3) =>
          ⟨some 3, start ++ tr1 ++ shown ++ run.trace ++ tr3 ++
            [Effect.print ("Error: " ++ err.message ++ "\n")]⟩
        | (.ok _, tr3) =>
          ⟨some 0, start ++ tr1 ++ shown ++ run.trace ++ tr3 ++
            [Effect.print ("Tokens saved to " ++ flags.outputFile ++ "\n")]⟩

/-! ## Auxiliary notions used to state the properties -/

/-- The outcome is a response whose status is not 200: the loop polls on. -/
def HttpOutcome.pending : HttpOutcome → Bool
  | .failure => false
  | .response resp => decide (resp.StatusCode ≠ statusOK)

/-- Value of `timer` after `n` iterations of the loop, from the value `t`. -/
def timerAfter (interval : Int) : Nat → Int → Int
  | 0, t => t
  | n + 1, t => timerAfter interval n (wrapInt64 (t + interval))

/-- Effects of `n` iterations that each got a status other than 200. -/
def pendingTrace (interval : Int) (url data : String) : Nat → List Effect
  | 0 => []
  | n + 1 =>
    Effect.sleep (wrapInt64 (interval * second)) :: Effect.post url formContentType data ::
      pendingTrace interval url data n

/-- The bound `max(0, ceil(expiresIn / interval))` on the number of attempts,
for a positive `interval`. -/
def attemptBound (interval expiresIn : Int) : Nat :=
  ((expiresIn + interval - 1) / interval).toNat

/-! ## Reading the written document back -/

/-- Storing a YAML node into a Go `string` field, as `yaml.Unmarshal` does:
a string scalar is stored, `null` gives the empty string, a mapping is an
error. -/
def yamlString : YamlNode → Option String
  | .scalar s => some s
  | .null => some ""
  | .mapping _ => none

/-- Storing one entry of a mapping into a `TokenData`, by the `yaml:"..."`
tags; keys are matched exactly and unknown keys are skipped. -/
def TokenData.setEntry (t : TokenData) (key : String) (n : YamlNode) : Option TokenData :=
  if key = "domain" then (yamlString n).map (fun s => { t with Domain := s })
  else if key = "clientId" then (yamlString n).map (fun s => { t with ClientID := s })
  else if key = "accessToken" then (yamlString n).map (fun s => { t with AccessToken := s })
  else if key = "refreshToken" then (yamlString n).map (fun s => { t with RefreshToken := s })
  else if key = "tokenType" then (yamlString n).map (fun s => { t with TokenType := s })
  else some t

/-- Storing the entries of a mapping into a `TokenData`, in document order. -/
def TokenData.setEntries : List (String × YamlNode) → TokenData → Option TokenData
  | [], t => some t
  | (k, n) :: rest, t =>
    match t.setEntry k n with
    | none => none
    | some t1 => TokenData.setEntries rest t1

/-- The zero value of `TokenData`. -/
def TokenData.zero : TokenData :=
  { Domain := "", ClientID := "", AccessToken := "", RefreshToken := "", TokenType := "" }

/-- Storing the top-level entries of a document into a `ZoraAuthResponse`:
the value of the key `zoraauth` is stored through the pointer, which `null`
resets to nil. -/
def ZoraAuthResponse.setEntries :
    List (String × YamlNode) → ZoraAuthResponse → Option ZoraAuthResponse
  | [], r => some r
  | (k, n) :: rest, r =>
    if k = "zoraauth" then
      match n with
      | .null => ZoraAuthResponse.setEntries rest ⟨none⟩
      | .scalar _ => none
      | .mapping entries =>
        match TokenData.setEntries entries (r.ZoraAuth.getD TokenData.zero) with
        | none => none
        | some t => ZoraAuthResponse.setEntries rest ⟨some t⟩
    else ZoraAuthResponse.setEntries rest r

/-- Re-parsing a written document under the container key, as
`yaml.Unmarshal` into a `ZoraAuthResponse` does. -/
def yamlUnmarshal : YamlNode → Option ZoraAuthResponse
  | .null => some ⟨none⟩
  | .scalar _ => none
  | .mapping entries => ZoraAuthResponse.setEntries entries ⟨none⟩

/-- The keys of a mapping node, in document order. -/
def YamlNode.keys : YamlNode → List String
  | .mapping entries => entries.map (fun e => e.1)
  | _ => []

/-! ## What a device-code payload gives to each field -/

/-- Whether the value is a JSON string. -/
def JValue.isString : JValue → Bool
  | .string _ => true
  | _ => false

/-- Whether the value is an integer literal within the range of `int`. -/
def JValue.isInt64 : JValue → Bool
  | .number (.integer n) => decide (minInt64 ≤ n ∧ n ≤ maxInt64)
  | _ => false

/-- The string a value stands for (empty when it is not a string). -/
def JValue.stringValue : JValue → String
  | .string s => s
  | _ => ""

/-- The integer a value stands for (0 when it is not an integer literal). -/
def JValue.intValue : JValue → Int
  | .number (.integer n) => n
  | _ => 0

/-- Whether the field is one of the two `int` fields. -/
def DeviceField.isInt : DeviceField → Bool
  | .expiresIn => true
  | .interval => true
  | _ => false

/-- Whether a member value has the JSON type of the field it is stored into:
`null`, or a string for a `string` field, or an integer literal within the
range of `int` for an `int` field. -/
def DeviceField.accepts (f : DeviceField) (v : JValue) : Bool :=
  v.isNull || (if f.isInt then v.isInt64 else v.isString)

/-- Whether a member can be stored: it names no field, or it has the JSON type
of the field it names. -/
def memberOk (k : String) (v : JValue) : Bool :=
  match DeviceField.lookup k with
  | none => true
  | some f => f.accepts v

/-- Whether every member named like a field has the JSON type of that field. -/
def wellTyped (ms : List (String × JValue)) : Bool :=
  ms.all (fun m => memberOk m.1 m.2)

/-- The member of the payload that names the field: the last one that is not
`null`, if any. -/
def lastMember (f : DeviceField) : List (String × JValue) → Option JValue
  | [] => none
  | (k, v) :: rest =>
    match lastMember f rest with
    | some w => some w
    | none => if DeviceField.lookup k = some f ∧ v.isNull = false then some v else none

/-- The string the payload gives to a field, `old` when no member names it. -/
def payloadString (f : DeviceField) (ms : List (String × JValue)) (old : String) : String :=
  match lastMember f ms with
  | some v => v.stringValue
  | none => old

/-- The integer the payload gives to a field, `old` when no member names it. -/
def payloadInt (f : DeviceField) (ms : List (String × JValue)) (old : Int) : Int :=
  match lastMember f ms with
  | some v => v.intValue
  | none => old

/-- A device-code payload as an OAuth provider sends it. -/
def devicePayload : List (String × JValue) :=
  [("device_code", .string "dc"), ("user_code", .string "WXYZ"),
   ("verification_uri", .string "https://x.com/activate"),
   ("verification_uri_complete", .string "https://x.com/activate?user_code=WXYZ"),
   ("expires_in", .number (.integer 10)), ("interval", .number (.integer 2))]

/-- The token set of the round-trip example. -/
def sampleTokens : TokenData :=
  { Domain := "x.com", ClientID := "abc", AccessToken := "t1", RefreshToken := "r1",
    TokenType := "Bearer" }

/-! ## Concrete worlds -/

/-- A response with status 403 and a body that is not JSON. -/
def forbidden : HttpOutcome := .response ⟨403, "403 Forbidden", .malformed⟩

/-- The token response `t1` / `r1` / `Bearer`. -/
def tokenBody : Body :=
  .json (.object
    [("access_token", .string "t1"), ("refresh_token", .string "r1"),
     ("token_type", .string "Bearer")])

/-- A well-formed JSON body whose `access_token` is a number. -/
def numberTokenBody : Body := .json (.object [("access_token", .number (.integer 1))])

/-- A provider that always answers 403. -/
def alwaysPending : Nat → HttpOutcome := fun _ => forbidden

/-- A provider that answers 403 before attempt `k` and then 200 with `body`. -/
def okAt (k : Nat) (body : Body) : Nat → HttpOutcome :=
  fun n => if n + 1 < k then forbidden else .response ⟨200, "200 OK", body⟩

/-- A provider that answers 403 before attempt `k` and then fails at transport
level. -/
def failAt (k : Nat) : Nat → HttpOutcome :=
  fun n => if n + 1 < k then forbidden else .failure

/-- A world in which every stage succeeds: the device code is granted with
`interval = 2` and `expires_in = 10`, the fifth poll is answered 200, and the
file system accepts the write. -/
def sampleWorld : World :=
  { deviceCode := .response ⟨200, "200 OK", .json (.object devicePayload)⟩
    poll := okAt 5 tokenBody
    fsOk := fun _ _ _ => true }

/-! ## Lemmas on machine integers -/

theorem wrapInt64_of_inRange (x : Int) (h1 : minInt64 ≤ x) (h2 : x ≤ maxInt64) :
    wrapInt64 x = x := by
  unfold minInt64 at h1
  unfold maxInt64 at h2
  unfold wrapInt64
  omega

theorem timerAfter_eq (interval : Int) (n : Nat) (t : Int)
    (h : ∀ j : Nat, 1 ≤ j → j ≤ n →
      minInt64 ≤ t + j * interval ∧ t + j * interval ≤ maxInt64) :
    timerAfter interval n t = t + n * interval := by
  induction n generalizing t with
  | zero => simp [timerAfter]
  | succ n ih =>
    have h1 := h 1 (le_refl 1) (by omega)
    simp only [Nat.cast_one, one_mul] at h1
    rw [timerAfter, wrapInt64_of_inRange _ h1.1 h1.2, ih]
    · push_cast; ring
    · intro j hj1 hjn
      have := h (j + 1) (by omega) (by omega)
      push_cast at this
      constructor
      · linarith [this.1]
      · linarith [this.2]

theorem attemptBound_spec (interval expiresIn : Int) (hI : 1 ≤ interval) (hE : 1 ≤ expiresIn) :
    1 ≤ attemptBound interval expiresIn ∧
    ((attemptBound interval expiresIn : Int) - 1) * interval < expiresIn ∧
    expiresIn ≤ (attemptBound interval expiresIn : Int) * interval := by
  unfold attemptBound
  have hpos : (0 : Int) < interval := by omega
  have hq : 1 ≤ (expiresIn + interval - 1) / interval := by
    rw [Int.le_ediv_iff_mul_le hpos]; omega
  have hcast : (((expiresIn + interval - 1) / interval).toNat : Int) =
      (expiresIn + interval - 1) / interval := Int.toNat_of_nonneg (by omega)
  have h1 := Int.ediv_add_emod (expiresIn + interval - 1) interval
  have h2 := Int.emod_nonneg (expiresIn + interval - 1) (show interval ≠ 0 by omega)
  have h3 := Int.emod_lt_of_pos (expiresIn + interval - 1) hpos
  refine ⟨?_, ?_, ?_⟩
  · have : (1 : Int) ≤ ((expiresIn + interval - 1) / interval).toNat := by rw [hcast]; exact hq
    exact_mod_cast this
  · rw [hcast]; nlinarith
  · rw [hcast]; nlinarith

theorem attemptBound_of_nonpos (interval expiresIn : Int) (hI : 1 ≤ interval)
    (hE : expiresIn ≤ 0) : attemptBound interval expiresIn = 0 := by
  unfold attemptBound
  have hpos : (0 : Int) < interval := by omega
  have : (expiresIn + interval - 1) / interval ≤ 0 := by
    have := Int.ediv_lt_of_lt_mul hpos (show expiresIn + interval - 1 < 1 * interval by omega)
    omega
  exact Int.toNat_eq_zero.mpr this

theorem attemptBound_eq_ceil (interval expiresIn : Int) (hI : 1 ≤ interval)
    (hE : 1 ≤ expiresIn) :
    (attemptBound interval expiresIn : Int) = ⌈(expiresIn : ℚ) / (interval : ℚ)⌉ := by
  obtain ⟨_, h2, h3⟩ := attemptBound_spec interval expiresIn hI hE
  have hpos : (0 : ℚ) < (interval : ℚ) := by exact_mod_cast (show (0 : Int) < interval by omega)
  symm
  rw [Int.ceil_eq_iff]
  constructor
  · rw [lt_div_iff₀ hpos]
    exact_mod_cast h2
  · rw [div_le_iff₀ hpos]
    exact_mod_cast h3

/-! ## Lemmas on traces -/

theorem posts_append (a b : List Effect) : posts (a ++ b) = posts a + posts b := by
  simp [posts, List.countP_append]

theorem sleeps_append (a b : List Effect) : sleeps (a ++ b) = sleeps a + sleeps b := by
  simp [sleeps, List.countP_append]

theorem bodyReads_append (a b : List Effect) :
    bodyReads (a ++ b) = bodyReads a + bodyReads b := by
  simp [bodyReads, List.countP_append]

theorem sleptNanos_append (a b : List Effect) :
    sleptNanos (a ++ b) = sleptNanos a + sleptNanos b := by
  simp [sleptNanos, List.map_append, List.sum_append]

theorem writeModes_append (a b : List Effect) :
    writeModes (a ++ b) = writeModes a ++ writeModes b := by
  induction a with
  | nil => rfl
  | cons e rest ih => cases e <;> simp [writeModes, ih]

theorem posts_pendingTrace (interval : Int) (url data : String) (n : Nat) :
    posts (pendingTrace interval url data n) = n := by
  induction n with
  | zero => rfl
  | succ n ih =>
    simp only [posts] at ih
    simp [pendingTrace, posts, List.countP_cons, Effect.isPost, ih]

theorem sleeps_pendingTrace (interval : Int) (url data : String) (n : Nat) :
    sleeps (pendingTrace interval url data n) = n := by
  induction n with
  | zero => rfl
  | succ n ih =>
    simp only [sleeps] at ih
    simp [pendingTrace, sleeps, List.countP_cons, Effect.isSleep, ih]

theorem bodyReads_pendingTrace (interval : Int) (url data : String) (n : Nat) :
    bodyReads (pendingTrace interval url data n) = 0 := by
  induction n with
  | zero => rfl
  | succ n ih =>
    simp only [bodyReads] at ih
    simp [pendingTrace, bodyReads, List.countP_cons, Effect.isReadBody, ih]

theorem sleptNanos_pendingTrace (interval : Int) (url data : String) (n : Nat) :
    sleptNanos (pendingTrace interval url data n) =
      n * max 0 (wrapInt64 (interval * second)) := by
  induction n with
  | zero => simp [pendingTrace, sleptNanos]
  | succ n ih =>
    simp only [sleptNanos] at ih
    simp only [pendingTrace, sleptNanos, List.map_cons, List.sum_cons, Effect.pause, ih]
    push_cast
    ring

/-! ## Lemmas on the polling loop -/

theorem pending_iff (o : HttpOutcome) :
    o.pending = true ↔ ∃ resp, o = .response resp ∧ resp.StatusCode ≠ statusOK := by
  cases o with
  | failure => simp [HttpOutcome.pending]
  | response resp => simp [HttpOutcome.pending]

/-- Once the guard `timer < expiresIn` is false the loop returns the
expiration error without any effect, whatever the fuel. -/
theorem pollLoop_expired (domain clientID url data : String) (interval expiresIn : Int)
    (provider : Nat → HttpOutcome) (fuel : Nat) (t : Int) (a : Nat) (h : ¬ t < expiresIn) :
    pollLoop domain clientID url data interval expiresIn provider fuel t a =
      ⟨some (.error .expired), t, []⟩ := by
  cases fuel <;> simp [pollLoop, h]

/-- One iteration that gets a status other than 200. -/
theorem pollLoop_step (domain clientID url data : String) (interval expiresIn : Int)
    (provider : Nat → HttpOutcome) (fuel : Nat) (t : Int) (a : Nat) (h : t < expiresIn)
    (hp : (provider a).pending = true) :
    pollLoop domain clientID url data interval expiresIn provider (fuel + 1) t a =
      ⟨(pollLoop domain clientID url data interval expiresIn provider fuel
          (wrapInt64 (t + interval)) (a + 1)).result,
        (pollLoop domain clientID url data interval expiresIn provider fuel
          (wrapInt64 (t + interval)) (a + 1)).timer,
        pendingTrace interval url data 1 ++
          (pollLoop domain clientID url data interval expiresIn provider fuel
            (wrapInt64 (t + interval)) (a + 1)).trace⟩ := by
  obtain ⟨resp, hresp, hne⟩ := (pending_iff _).mp hp
  rw [pollLoop]
  simp [h, hresp, hne, pendingTrace]

/-- Unrolling of `n` iterations that each get a status other than 200. -/
theorem pollLoop_pending (domain clientID url data : String) (interval expiresIn : Int)
    (provider : Nat → HttpOutcome) (n fuel : Nat) (t : Int) (a : Nat)
    (hp : ∀ j, j < n → (provider (a + j)).pending = true)
    (hg : ∀ j, j < n → timerAfter interval j t < expiresIn) :
    pollLoop domain clientID url data interval expiresIn provider (n + fuel) t a =
      ⟨(pollLoop domain clientID url data interval expiresIn provider fuel
          (timerAfter interval n t) (a + n)).result,
        (pollLoop domain clientID url data interval expiresIn provider fuel
          (timerAfter interval n t) (a + n)).timer,
        pendingTrace interval url data n ++
          (pollLoop domain clientID url data interval expiresIn provider fuel
            (timerAfter interval n t) (a + n)).trace⟩ := by
  induction n generalizing t a with
  | zero => simp [timerAfter, pendingTrace]
  | succ n ih =>
    have hg0 : t < expiresIn := by simpa [timerAfter] using hg 0 (Nat.succ_pos n)
    have hp0 : (provider a).pending = true := by simpa using hp 0 (Nat.succ_pos n)
    have hfuel : n + 1 + fuel = (n + fuel) + 1 := by omega
    rw [hfuel, pollLoop_step _ _ _ _ _ _ _ _ _ _ hg0 hp0]
    rw [ih (wrapInt64 (t + interval)) (a + 1)
      (fun j hj => by have := hp (j + 1) (by omega); rwa [show a + 1 + j = a + (j + 1) by omega])
      (fun j hj => by have := hg (j + 1) (by omega); simpa [timerAfter] using this)]
    have ha : a + 1 + n = a + (n + 1) := by omega
    simp [timerAfter, pendingTrace, ha]

/-- One iteration that gets a 200 with a body `json.Unmarshal` accepts. -/
theorem pollLoop_ok (domain clientID url data : String) (interval expiresIn : Int)
    (provider : Nat → HttpOutcome) (fuel : Nat) (t : Int) (a : Nat) (resp : Response)
    (v : JValue) (tokenResponse : TokenResponse) (h : t < expiresIn)
    (hresp : provider a = .response resp) (hstatus : resp.StatusCode = statusOK)
    (hbody : resp.Body = .json v) (hdec : unmarshalToken v = some tokenResponse) :
    pollLoop domain clientID url data interval expiresIn provider (fuel + 1) t a =
      ⟨some (.ok
          { Domain := domain
            ClientID := clientID
            AccessToken := tokenResponse.AccessToken
            RefreshToken := tokenResponse.RefreshToken
            TokenType := tokenResponse.TokenType }),
        wrapInt64 (t + interval),
        pendingTrace interval url data 1 ++ [Effect.readBody]⟩ := by
  rw [pollLoop]
  simp [h, hresp, hstatus, hbody, hdec, pendingTrace]

/-- One iteration that ends in a transport error. -/
theorem pollLoop_failure (domain clientID url data : String) (interval expiresIn : Int)
    (provider : Nat → HttpOutcome) (fuel : Nat) (t : Int) (a : Nat) (h : t < expiresIn)
    (hresp : provider a = .failure) :
    pollLoop domain clientID url data interval expiresIn provider (fuel + 1) t a =
      ⟨some (.error .pollFailed), wrapInt64 (t + interval),
        pendingTrace interval url data 1⟩ := by
  rw [pollLoop]
  simp [h, hresp, pendingTrace]

/-- With the guard true and no fuel left the loop is still polling. -/
theorem pollLoop_noFuel (domain clientID url data : String) (interval expiresIn : Int)
    (provider : Nat → HttpOutcome) (t : Int) (a : Nat) (h : t < expiresIn) :
    pollLoop domain clientID url data interval expiresIn provider 0 t a = ⟨none, t, []⟩ := by
  simp [pollLoop, h]

/-- While no partial sum leaves the range of `int`, `timer` is the exact
multiple of `interval`. -/
theorem timerAfter_of_nonneg (interval : Int) (n : Nat) (hI : 0 ≤ interval)
    (hmax : (n : Int) * interval ≤ maxInt64) :
    timerAfter interval n 0 = n * interval := by
  rw [timerAfter_eq, zero_add]
  intro j _ hjn
  have hj : (j : Int) ≤ n := by exact_mod_cast hjn
  have h1 : (j : Int) * interval ≤ n * interval := mul_le_mul_of_nonneg_right hj hI
  have h2 : (0 : Int) ≤ j * interval := mul_nonneg (by positivity) hI
  unfold minInt64
  constructor <;> linarith

theorem timerAfter_of_nonpos (interval : Int) (n : Nat) (hI : interval ≤ 0)
    (hmin : minInt64 ≤ (n : Int) * interval) :
    timerAfter interval n 0 = n * interval := by
  rw [timerAfter_eq, zero_add]
  intro j _ hjn
  have hj : (j : Int) ≤ n := by exact_mod_cast hjn
  have h1 : (n : Int) * interval ≤ j * interval := mul_le_mul_of_nonpos_right hj hI
  have h2 : (j : Int) * interval ≤ 0 := mul_nonpos_of_nonneg_of_nonpos (by positivity) hI
  unfold maxInt64
  constructor <;> linarith

/-- A token set comes from a 200 response reached through responses with
other statuses only. -/
theorem pollLoop_ok_inv (domain clientID url data : String) (interval expiresIn : Int)
    (provider : Nat → HttpOutcome) (fuel : Nat) (t : Int) (a : Nat) (tokens : TokenData)
    (h : (pollLoop domain clientID url data interval expiresIn provider fuel t a).result =
      some (.ok tokens)) :
    ∃ (k : Nat) (resp : Response) (v : JValue) (tokenResponse : TokenResponse),
      posts (pollLoop domain clientID url data interval expiresIn provider fuel t a).trace
        = k + 1 ∧
      provider (a + k) = .response resp ∧ resp.StatusCode = statusOK ∧
      resp.Body = .json v ∧ unmarshalToken v = some tokenResponse ∧
      (∀ j, j < k → (provider (a + j)).pending = true) ∧
      tokens =
        { Domain := domain
          ClientID := clientID
          AccessToken := tokenResponse.AccessToken
          RefreshToken := tokenResponse.RefreshToken
          TokenType := tokenResponse.TokenType } := by
  induction fuel generalizing t a with
  | zero =>
    by_cases hg : t < expiresIn
    · simp [pollLoop, hg] at h
    · simp [pollLoop, hg] at h
  | succ fuel ih =>
    by_cases hg : t < expiresIn
    · cases hprov : provider a with
      | failure =>
        rw [pollLoop_failure _ _ _ _ _ _ _ _ _ _ hg hprov] at h
        simp at h
      | response resp =>
        by_cases hs : resp.StatusCode = statusOK
        · cases hb : resp.Body with
          | unreadable =>
            rw [pollLoop] at h; simp [hg, hprov, hs, hb] at h
          | malformed =>
            rw [pollLoop] at h; simp [hg, hprov, hs, hb] at h
          | json v =>
            cases hd : unmarshalToken v with
            | none => rw [pollLoop] at h; simp [hg, hprov, hs, hb, hd] at h
            | some tokenResponse =>
              rw [pollLoop_ok _ _ _ _ _ _ _ _ _ _ resp v tokenResponse hg hprov hs hb hd] at h
              rw [pollLoop_ok _ _ _ _ _ _ _ _ _ _ resp v tokenResponse hg hprov hs hb hd]
              refine ⟨0, resp, v, tokenResponse, ?_, by simpa using hprov, hs, hb, hd, ?_, ?_⟩
              · rw [posts_append, posts_pendingTrace]; rfl
              · intro j hj; omega
              · simp at h; exact h.symm
        · have hp : (provider a).pending = true := by
            rw [pending_iff]; exact ⟨resp, hprov, hs⟩
          rw [pollLoop_step _ _ _ _ _ _ _ _ _ _ hg hp] at h
          rw [pollLoop_step _ _ _ _ _ _ _ _ _ _ hg hp]
          obtain ⟨k, resp1, v, tokenResponse, h1, h2, h3, h4, h5, h6, h7⟩ := ih _ _ h
          refine ⟨k + 1, resp1, v, tokenResponse, ?_, ?_, h3, h4, h5, ?_, h7⟩
          · simp only [posts_append, posts_pendingTrace, h1]; omega
          · rw [← h2]; congr 1; omega
          · intro j hj
            cases j with
            | zero => simpa using hp
            | succ j =>
              have := h6 j (by omega)
              rwa [show a + 1 + j = a + (j + 1) by omega] at this
    · rw [pollLoop_expired _ _ _ _ _ _ _ _ _ _ hg] at h
      simp at h

/-- Attempt number `m + 1` ending in a transport error ends the run. -/
theorem pollLoop_failure_inv (domain clientID url data : String) (interval expiresIn : Int)
    (provider : Nat → HttpOutcome) (m fuel : Nat) (t : Int) (a : Nat)
    (hp : ∀ j, j < m → (provider (a + j)).pending = true)
    (hf : provider (a + m) = .failure)
    (hmade : m + 1 ≤
      posts (pollLoop domain clientID url data interval expiresIn provider fuel t a).trace) :
    (pollLoop domain clientID url data interval expiresIn provider fuel t a).result =
        some (.error .pollFailed) ∧
      (pollLoop domain clientID url data interval expiresIn provider fuel t a).trace =
        pendingTrace interval url data (m + 1) := by
  induction m generalizing fuel t a with
  | zero =>
    by_cases hg : t < expiresIn
    · cases fuel with
      | zero => rw [pollLoop_noFuel _ _ _ _ _ _ _ _ _ hg] at hmade; simp [posts] at hmade
      | succ fuel =>
        rw [pollLoop_failure _ _ _ _ _ _ _ _ _ _ hg (by simpa using hf)]
        simp
    · rw [pollLoop_expired _ _ _ _ _ _ _ _ _ _ hg] at hmade; simp [posts] at hmade
  | succ m ih =>
    by_cases hg : t < expiresIn
    · cases fuel with
      | zero => rw [pollLoop_noFuel _ _ _ _ _ _ _ _ _ hg] at hmade; simp [posts] at hmade
      | succ fuel =>
        have hp0 : (provider a).pending = true := by simpa using hp 0 (Nat.succ_pos m)
        rw [pollLoop_step _ _ _ _ _ _ _ _ _ _ hg hp0] at hmade
        rw [pollLoop_step _ _ _ _ _ _ _ _ _ _ hg hp0]
        simp only [posts_append, posts_pendingTrace] at hmade
        have := ih fuel (wrapInt64 (t + interval)) (a + 1)
          (fun j hj => by
            have := hp (j + 1) (by omega)
            rwa [show a + 1 + j = a + (j + 1) by omega])
          (by rw [show a + 1 + m = a + (m + 1) by omega]; exact hf)
          (by omega)
        refine ⟨this.1, ?_⟩
        simp only [this.2]
        simp [pendingTrace]
    · rw [pollLoop_expired _ _ _ _ _ _ _ _ _ _ hg] at hmade; simp [posts] at hmade

/-- Within `n` iterations that do not overflow `timer` the loop has returned,
whatever the provider answers; at expiration `timer` has just passed
`expiresIn`. -/
theorem pollLoop_terminates (domain clientID url data : String) (interval expiresIn : Int)
    (provider : Nat → HttpOutcome) (n fuel : Nat) (t : Int) (a : Nat)
    (hI : 1 ≤ interval) (ht : minInt64 ≤ t) (hmax : t + n * interval ≤ maxInt64)
    (hn : expiresIn ≤ t + n * interval) (hfuel : n ≤ fuel) (hlt : t < expiresIn + interval) :
    (pollLoop domain clientID url data interval expiresIn provider fuel t a).result ≠ none ∧
      posts (pollLoop domain clientID url data interval expiresIn provider fuel t a).trace ≤ n ∧
      sleeps (pollLoop domain clientID url data interval expiresIn provider fuel t a).trace
        ≤ n ∧
      ((pollLoop domain clientID url data interval expiresIn provider fuel t a).result =
          some (.error .expired) →
        expiresIn ≤
            (pollLoop domain clientID url data interval expiresIn provider fuel t a).timer ∧
          (pollLoop domain clientID url data interval expiresIn provider fuel t a).timer <
            expiresIn + interval) := by
  induction n generalizing fuel t a with
  | zero =>
    have hg : ¬ t < expiresIn := by simp at hn; omega
    rw [pollLoop_expired _ _ _ _ _ _ _ _ _ _ hg]
    refine ⟨by simp, by simp [posts], by simp [sleeps], fun _ => ⟨by simpa using hn, hlt⟩⟩
  | succ n ih =>
    by_cases hg : t < expiresIn
    · obtain ⟨fuel, rfl⟩ : ∃ f, fuel = f + 1 := ⟨fuel - 1, by omega⟩
      have hn0 : (0 : Int) ≤ (n : Int) * interval := mul_nonneg (by positivity) (by omega)
      have hw : wrapInt64 (t + interval) = t + interval := by
        apply wrapInt64_of_inRange
        · omega
        · push_cast at hmax; linarith
      cases hprov : provider a with
      | failure =>
        rw [pollLoop_failure _ _ _ _ _ _ _ _ _ _ hg hprov]
        refine ⟨by simp, ?_, ?_, by simp⟩
        · simp only [posts_pendingTrace]; omega
        · simp only [sleeps_pendingTrace]; omega
      | response resp =>
        by_cases hs : resp.StatusCode = statusOK
        · have key : ∃ r, r ≠ Err.expired ∧ ∃ res : Except Err TokenData,
              (res = .error r ∨ ∃ tok, res = .ok tok) ∧
              pollLoop domain clientID url data interval expiresIn provider (fuel + 1) t a =
                ⟨some res, wrapInt64 (t + interval),
                  pendingTrace interval url data 1 ++ [Effect.readBody]⟩ := by
            cases hb : resp.Body with
            | unreadable =>
              refine ⟨.readFailed, by simp, .error .readFailed, Or.inl rfl, ?_⟩
              rw [pollLoop]; simp [hg, hprov, hs, hb, pendingTrace]
            | malformed =>
              refine ⟨.parseFailed, by simp, .error .parseFailed, Or.inl rfl, ?_⟩
              rw [pollLoop]; simp [hg, hprov, hs, hb, pendingTrace]
            | json v =>
              cases hd : unmarshalToken v with
              | none =>
                refine ⟨.parseFailed, by simp, .error .parseFailed, Or.inl rfl, ?_⟩
                rw [pollLoop]; simp [hg, hprov, hs, hb, hd, pendingTrace]
              | some tokenResponse =>
                refine ⟨.parseFailed, by simp, _, Or.inr ⟨_, rfl⟩,
                  pollLoop_ok _ _ _ _ _ _ _ _ _ _ resp v tokenResponse hg hprov hs hb hd⟩
          obtain ⟨r, hr, res, hres, heq⟩ := key
          rw [heq]
          refine ⟨by simp, ?_, ?_, ?_⟩
          · rw [posts_append, posts_pendingTrace]
            show 1 + 0 ≤ n + 1
            omega
          · rw [sleeps_append, sleeps_pendingTrace]
            show 1 + 0 ≤ n + 1
            omega
          · intro hexp
            rcases hres with h1 | ⟨tok, h1⟩
            · subst h1; simp at hexp; exact absurd hexp hr
            · subst h1; simp at hexp
        · have hp : (provider a).pending = true := by
            rw [pending_iff]; exact ⟨resp, hprov, hs⟩
          rw [pollLoop_step _ _ _ _ _ _ _ _ _ _ hg hp, hw]
          have := ih fuel (t + interval) (a + 1) (by omega)
            (by push_cast at hmax; linarith) (by push_cast at hn; linarith) (by omega)
            (by omega)
          refine ⟨this.1, ?_, ?_, this.2.2.2⟩
          · simp only [posts_append, posts_pendingTrace]; omega
          · simp only [sleeps_append, sleeps_pendingTrace]; omega
    · rw [pollLoop_expired _ _ _ _ _ _ _ _ _ _ hg]
      refine ⟨by simp, by simp [posts], by simp [sleeps],
        fun _ => ⟨by show expiresIn ≤ t; omega, hlt⟩⟩

/-- Against answers that are never 200, after `n` iterations whose guards hold
the loop is at the value `timerAfter interval n t` of `timer`, `n` requests
made. -/
theorem pollLoop_pending_noFuel (domain clientID url data : String)
    (interval expiresIn : Int) (provider : Nat → HttpOutcome) (n : Nat) (t : Int) (a : Nat)
    (hp : ∀ j, j < n → (provider (a + j)).pending = true)
    (hg : ∀ j, j ≤ n → timerAfter interval j t < expiresIn) :
    pollLoop domain clientID url data interval expiresIn provider n t a =
      ⟨none, timerAfter interval n t, pendingTrace interval url data n⟩ := by
  have h := pollLoop_pending domain clientID url data interval expiresIn provider n 0 t a hp
    (fun j hj => hg j (by omega))
  rw [Nat.add_zero] at h
  rw [h, pollLoop_noFuel _ _ _ _ _ _ _ _ _ (hg n (le_refl n))]
  simp

/-! ## The polling loop: success, expiration, transport errors -/

/-- C1 (as amended): with `1 ≤ interval`, `interval * 10^9` within `int64`
(so that the `time.Duration` of a sleep does not wrap) and
`(k - 1) * interval < expiresIn`, if the provider answers a status other than
200 on attempts `1 .. k-1` and on attempt `k` a 200 whose body `json.Unmarshal`
accepts as a `TokenResponse`, then `pollForToken` returns the token set after
exactly `k` requests and `k` sleeps of `interval` seconds each, which is at
least `(k - 1) * interval` seconds. -/
theorem pollForToken_succeeds_at_attempt (domain clientID deviceCode : String)
    (interval expiresIn : Int) (provider : Nat → HttpOutcome) (k fuel : Nat)
    (resp : Response) (v : JValue) (tokenResponse : TokenResponse)
    (hI : 1 ≤ interval) (hdur : interval * second ≤ maxInt64) (hE : expiresIn ≤ maxInt64)
    (hk : 1 ≤ k) (hbudget : ((k : Int) - 1) * interval < expiresIn)
    (hpend : ∀ j, j + 1 < k → (provider j).pending = true)
    (hresp : provider (k - 1) = .response resp) (hstatus : resp.StatusCode = statusOK)
    (hbody : resp.Body = .json v) (hdec : unmarshalToken v = some tokenResponse)
    (hfuel : k ≤ fuel) :
    (pollForToken domain clientID deviceCode interval expiresIn provider fuel).result =
        some (.ok
          { Domain := domain
            ClientID := clientID
            AccessToken := tokenResponse.AccessToken
            RefreshToken := tokenResponse.RefreshToken
            TokenType := tokenResponse.TokenType }) ∧
      posts (pollForToken domain clientID deviceCode interval expiresIn provider fuel).trace
        = k ∧
      sleeps (pollForToken domain clientID deviceCode interval expiresIn provider fuel).trace
        = k ∧
      sleptNanos (pollForToken domain clientID deviceCode interval expiresIn provider fuel).trace
        = k * (interval * second) ∧
      ((k : Int) - 1) * (interval * second) ≤
        sleptNanos (pollForToken domain clientID deviceCode interval expiresIn provider
          fuel).trace := by
  obtain ⟨m, rfl⟩ : ∃ m, k = m + 1 := ⟨k - 1, by omega⟩
  obtain ⟨f, rfl⟩ : ∃ f, fuel = m + (f + 1) := ⟨fuel - m - 1, by omega⟩
  have hm : ((m : Int) + 1 - 1) * interval = m * interval := by ring
  push_cast at hbudget
  rw [hm] at hbudget
  have htimer : ∀ j : Nat, j ≤ m → timerAfter interval j 0 = j * interval := by
    intro j hj
    apply timerAfter_of_nonneg interval j (by omega)
    have h1 : (j : Int) * interval ≤ m * interval :=
      mul_le_mul_of_nonneg_right (by exact_mod_cast hj) (by omega)
    linarith
  have hguard : ∀ j : Nat, j ≤ m → timerAfter interval j 0 < expiresIn := by
    intro j hj
    rw [htimer j hj]
    have h1 : (j : Int) * interval ≤ m * interval :=
      mul_le_mul_of_nonneg_right (by exact_mod_cast hj) (by omega)
    linarith
  have hsec : (0 : Int) < second := by unfold second; omega
  have hwrap : wrapInt64 (interval * second) = interval * second :=
    wrapInt64_of_inRange _ (by unfold minInt64; nlinarith) hdur
  have hpos : (0 : Int) ≤ interval * second := by nlinarith
  unfold pollForToken
  simp only []
  rw [pollLoop_pending _ _ _ _ _ _ _ m (f + 1) 0 0
    (fun j hj => by rw [Nat.zero_add]; exact hpend j (by omega))
    (fun j hj => hguard j (by omega))]
  rw [pollLoop_ok _ _ _ _ _ _ _ _ _ _ resp v tokenResponse (hguard m (le_refl m))
    (by simpa using hresp) hstatus hbody hdec]
  have hslept : sleptNanos (pendingTrace interval
      ("https://" ++ domain ++ "/oauth/token")
      ("client_id=" ++ clientID ++
        "&grant_type=urn:ietf:params:oauth:grant-type:device_code&device_code=" ++ deviceCode)
      m ++ (pendingTrace interval
      ("https://" ++ domain ++ "/oauth/token")
      ("client_id=" ++ clientID ++
        "&grant_type=urn:ietf:params:oauth:grant-type:device_code&device_code=" ++ deviceCode)
      1 ++ [Effect.readBody])) = ((m + 1 : Nat) : Int) * (interval * second) := by
    rw [sleptNanos_append, sleptNanos_append, sleptNanos_pendingTrace,
      sleptNanos_pendingTrace, hwrap, max_eq_right hpos]
    have : sleptNanos [Effect.readBody] = 0 := rfl
    rw [this]
    push_cast
    ring
  refine ⟨rfl, ?_, ?_, hslept, ?_⟩
  · simp only [posts_append, posts_pendingTrace]
    show m + (1 + 0) = m + 1
    omega
  · simp only [sleeps_append, sleeps_pendingTrace]
    show m + (1 + 0) = m + 1
    omega
  · rw [hslept]
    push_cast
    nlinarith

/-- C2 (as amended): against a provider that always answers a status other
than 200, with `1 ≤ interval`, `1 ≤ expiresIn` and a `timer` that does not
overflow (`ceil(expiresIn / interval) * interval` within `int`), `pollForToken`
returns the expiration error after exactly `ceil(expiresIn / interval)`
requests; with fewer iterations it is still polling, and it never returns a
token set. -/
theorem pollForToken_expires_after_bound (domain clientID deviceCode : String)
    (interval expiresIn : Int) (provider : Nat → HttpOutcome) (fuel : Nat)
    (hI : 1 ≤ interval) (hE : 1 ≤ expiresIn)
    (hmax : (attemptBound interval expiresIn : Int) * interval ≤ maxInt64)
    (hpend : ∀ j, (provider j).pending = true) :
    (attemptBound interval expiresIn : Int) = ⌈(expiresIn : ℚ) / (interval : ℚ)⌉ ∧
      (attemptBound interval expiresIn ≤ fuel →
        (pollForToken domain clientID deviceCode interval expiresIn provider fuel).result =
            some (.error .expired) ∧
          posts (pollForToken domain clientID deviceCode interval expiresIn provider
            fuel).trace = attemptBound interval expiresIn) ∧
      (fuel < attemptBound interval expiresIn →
        (pollForToken domain clientID deviceCode interval expiresIn provider fuel).result =
            none ∧
          posts (pollForToken domain clientID deviceCode interval expiresIn provider
            fuel).trace = fuel) := by
  obtain ⟨h1, h2, h3⟩ := attemptBound_spec interval expiresIn hI hE
  have htimer : ∀ j : Nat, j ≤ attemptBound interval expiresIn →
      timerAfter interval j 0 = j * interval := by
    intro j hj
    apply timerAfter_of_nonneg interval j (by omega)
    have : (j : Int) * interval ≤ attemptBound interval expiresIn * interval :=
      mul_le_mul_of_nonneg_right (by exact_mod_cast hj) (by omega)
    linarith
  have hguard : ∀ j : Nat, j < attemptBound interval expiresIn →
      timerAfter interval j 0 < expiresIn := by
    intro j hj
    rw [htimer j (by omega)]
    have hj1 : (j : Int) ≤ (attemptBound interval expiresIn : Int) - 1 := by
      have : (j : Int) < attemptBound interval expiresIn := by exact_mod_cast hj
      omega
    have : (j : Int) * interval ≤ ((attemptBound interval expiresIn : Int) - 1) * interval :=
      mul_le_mul_of_nonneg_right hj1 (by omega)
    linarith
  refine ⟨attemptBound_eq_ceil interval expiresIn hI hE, ?_, ?_⟩
  · intro hfuel
    obtain ⟨f, rfl⟩ : ∃ f, fuel = attemptBound interval expiresIn + f :=
      ⟨fuel - attemptBound interval expiresIn, by omega⟩
    unfold pollForToken
    simp only []
    rw [pollLoop_pending _ _ _ _ _ _ _ (attemptBound interval expiresIn) f 0 0
      (fun j _ => hpend _) hguard]
    rw [pollLoop_expired _ _ _ _ _ _ _ _ _ _
      (by rw [htimer _ (le_refl _)]; omega)]
    refine ⟨rfl, ?_⟩
    simp only [posts_append, posts_pendingTrace]
    rfl
  · intro hfuel
    unfold pollForToken
    simp only []
    rw [pollLoop_pending_noFuel _ _ _ _ _ _ _ fuel 0 0 (fun j _ => hpend _)
      (fun j hj => hguard j (by omega))]
    exact ⟨rfl, posts_pendingTrace _ _ _ _⟩

/-- C3: if attempts `1 .. n-1` were answered with a status other than 200 and
attempt `n` is made and ends in a transport error, `pollForToken` returns the
error "failed to poll for token" right after it: the effects are exactly `n`
sleeps each followed by a request, no body is read, and the result is neither
a token set nor the expiration error, whatever `interval` and `expiresIn`. -/
theorem pollForToken_transport_error_aborts (domain clientID deviceCode : String)
    (interval expiresIn : Int) (provider : Nat → HttpOutcome) (n fuel : Nat)
    (hn : 1 ≤ n) (hpend : ∀ j, j + 1 < n → (provider j).pending = true)
    (hfail : provider (n - 1) = .failure)
    (hmade : n ≤
      posts (pollForToken domain clientID deviceCode interval expiresIn provider fuel).trace) :
    (pollForToken domain clientID deviceCode interval expiresIn provider fuel).result =
        some (.error .pollFailed) ∧
      Err.pollFailed.message = "failed to poll for token" ∧
      (pollForToken domain clientID deviceCode interval expiresIn provider fuel).trace =
        pendingTrace interval ("https://" ++ domain ++ "/oauth/token")
          ("client_id=" ++ clientID ++
            "&grant_type=urn:ietf:params:oauth:grant-type:device_code&device_code=" ++
            deviceCode) n ∧
      posts (pollForToken domain clientID deviceCode interval expiresIn provider fuel).trace
        = n ∧
      sleeps (pollForToken domain clientID deviceCode interval expiresIn provider fuel).trace
        = n ∧
      bodyReads
        (pollForToken domain clientID deviceCode interval expiresIn provider fuel).trace = 0 := by
  obtain ⟨m, rfl⟩ : ∃ m, n = m + 1 := ⟨n - 1, by omega⟩
  unfold pollForToken at hmade ⊢
  simp only [] at hmade ⊢
  obtain ⟨hres, htr⟩ := pollLoop_failure_inv _ _ _ _ _ _ _ m fuel 0 0
    (fun j hj => by rw [Nat.zero_add]; exact hpend j (by omega))
    (by simpa using hfail) hmade
  refine ⟨hres, rfl, htr, ?_, ?_, ?_⟩
  · rw [htr, posts_pendingTrace]
  · rw [htr, sleeps_pendingTrace]
  · rw [htr, bodyReads_pendingTrace]

/-- C4: whenever `pollForToken` returns a token set, its last request (number
`k + 1`) was answered 200 with a body `json.Unmarshal` accepts, every earlier
request was answered with another status, the token set carries the `domain`
and `clientID` arguments, and its three token fields are those decoded from
that body. -/
theorem pollForToken_tokens_from_200 (domain clientID deviceCode : String)
    (interval expiresIn : Int) (provider : Nat → HttpOutcome) (fuel : Nat)
    (tokens : TokenData)
    (h : (pollForToken domain clientID deviceCode interval expiresIn provider fuel).result =
      some (.ok tokens)) :
    ∃ (k : Nat) (resp : Response) (v : JValue) (tokenResponse : TokenResponse),
      posts (pollForToken domain clientID deviceCode interval expiresIn provider fuel).trace
        = k + 1 ∧
      provider k = .response resp ∧ resp.StatusCode = statusOK ∧
      resp.Body = .json v ∧ unmarshalToken v = some tokenResponse ∧
      (∀ j, j < k → (provider j).pending = true) ∧
      tokens.Domain = domain ∧ tokens.ClientID = clientID ∧
      tokens.AccessToken = tokenResponse.AccessToken ∧
      tokens.RefreshToken = tokenResponse.RefreshToken ∧
      tokens.TokenType = tokenResponse.TokenType := by
  unfold pollForToken at h ⊢
  simp only [] at h ⊢
  obtain ⟨k, resp, v, tokenResponse, h1, h2, h3, h4, h5, h6, h7⟩ :=
    pollLoop_ok_inv _ _ _ _ _ _ _ _ _ _ _ h
  refine ⟨k, resp, v, tokenResponse, h1, by simpa using h2, h3, h4, h5, ?_, ?_⟩
  · intro j hj
    simpa using h6 j hj
  · subst h7
    exact ⟨rfl, rfl, rfl, rfl, rfl⟩

theorem attemptBound_eq_max_ceil (interval expiresIn : Int) (hI : 1 ≤ interval) :
    (attemptBound interval expiresIn : Int) = max 0 ⌈(expiresIn : ℚ) / (interval : ℚ)⌉ := by
  by_cases hE : 1 ≤ expiresIn
  · rw [attemptBound_eq_ceil interval expiresIn hI hE]
    symm
    apply max_eq_right
    rw [← attemptBound_eq_ceil interval expiresIn hI hE]
    positivity
  · rw [attemptBound_of_nonpos interval expiresIn hI (by omega)]
    symm
    apply max_eq_left
    rw [Int.ceil_le]
    have h1 : (expiresIn : ℚ) ≤ 0 := by exact_mod_cast (show expiresIn ≤ 0 by omega)
    have h2 : (0 : ℚ) ≤ (interval : ℚ) := by
      exact_mod_cast (show (0 : Int) ≤ interval by omega)
    simpa using div_nonpos_of_nonpos_of_nonneg h1 h2

/-- C1, witness: `interval = 2`, `expiresIn = 10`, 403 four times and 200 on
the fifth attempt: success after exactly 5 requests and 10 seconds of sleep. -/
theorem pollForToken_succeeds_at_attempt_witness :
    (pollForToken "x.com" "abc" "dc" 2 10 (okAt 5 tokenBody) 5).result =
        some (.ok
          { Domain := "x.com"
            ClientID := "abc"
            AccessToken := "t1"
            RefreshToken := "r1"
            TokenType := "Bearer" }) ∧
      posts (pollForToken "x.com" "abc" "dc" 2 10 (okAt 5 tokenBody) 5).trace = 5 ∧
      sleeps (pollForToken "x.com" "abc" "dc" 2 10 (okAt 5 tokenBody) 5).trace = 5 ∧
      sleptNanos (pollForToken "x.com" "abc" "dc" 2 10 (okAt 5 tokenBody) 5).trace =
        ((5 : Nat) : Int) * (2 * second) ∧
      (((5 : Nat) : Int) - 1) * (2 * second) ≤
        sleptNanos (pollForToken "x.com" "abc" "dc" 2 10 (okAt 5 tokenBody) 5).trace :=
  pollForToken_succeeds_at_attempt "x.com" "abc" "dc" 2 10 (okAt 5 tokenBody) 5 5
    ⟨200, "200 OK", tokenBody⟩
    (.object
      [("access_token", .string "t1"), ("refresh_token", .string "r1"),
       ("token_type", .string "Bearer")])
    ⟨"t1", "r1", "Bearer"⟩
    (by decide) (by decide) (by decide) (by decide) (by decide)
    (fun j hj => by simp [okAt, hj, forbidden, HttpOutcome.pending, statusOK])
    rfl rfl rfl rfl (le_refl 5)

/-- C1, counterexample: (1) with `interval = 9223372037` the duration
`interval * time.Second` wraps to a negative `int64`, `time.Sleep` returns at
once, and the run that succeeds on attempt 2 has slept 0 seconds, not the
`(2 - 1) * interval` of the claim; (2) with `interval = 2`, `expiresIn = 10`
and a fifth answer that is a 200 with the well-formed JSON body whose only
member is `access_token: 1`, the run ends in "failed to parse JSON response",
not in success. -/
theorem pollForToken_succeeds_at_attempt_counterexample :
    ((1 : Int) ≤ 9223372037 ∧ ((2 : Int) - 1) * 9223372037 < maxInt64 ∧
      (okAt 2 tokenBody 0).pending = true ∧
      (pollForToken "x.com" "abc" "dc" 9223372037 maxInt64 (okAt 2 tokenBody) 2).result =
        some (.ok
          { Domain := "x.com"
            ClientID := "abc"
            AccessToken := "t1"
            RefreshToken := "r1"
            TokenType := "Bearer" }) ∧
      posts (pollForToken "x.com" "abc" "dc" 9223372037 maxInt64 (okAt 2 tokenBody) 2).trace
        = 2 ∧
      sleptNanos
        (pollForToken "x.com" "abc" "dc" 9223372037 maxInt64 (okAt 2 tokenBody) 2).trace = 0 ∧
      ¬ (((2 : Int) - 1) * (9223372037 * second) ≤ sleptNanos
        (pollForToken "x.com" "abc" "dc" 9223372037 maxInt64 (okAt 2 tokenBody) 2).trace)) ∧
    ((pollForToken "x.com" "abc" "dc" 2 10 (okAt 5 numberTokenBody) 5).result =
        some (.error .parseFailed) ∧
      posts (pollForToken "x.com" "abc" "dc" 2 10 (okAt 5 numberTokenBody) 5).trace = 5) := by
  refine ⟨⟨by decide, by decide, rfl, rfl, rfl, rfl, ?_⟩, rfl, rfl⟩
  have h : sleptNanos
      (pollForToken "x.com" "abc" "dc" 9223372037 maxInt64 (okAt 2 tokenBody) 2).trace = 0 := rfl
  rw [h]
  decide

/-- C2, witness: `interval = 5`, `expiresIn = 5`, always 403: the expiration
error after exactly 1 request. -/
theorem pollForToken_expires_after_bound_witness :
    (attemptBound 5 5 : Int) = ⌈((5 : Int) : ℚ) / ((5 : Int) : ℚ)⌉ ∧
      (attemptBound 5 5 ≤ 1 →
        (pollForToken "x.com" "abc" "dc" 5 5 alwaysPending 1).result =
            some (.error .expired) ∧
          posts (pollForToken "x.com" "abc" "dc" 5 5 alwaysPending 1).trace =
            attemptBound 5 5) ∧
      (1 < attemptBound 5 5 →
        (pollForToken "x.com" "abc" "dc" 5 5 alwaysPending 1).result = none ∧
          posts (pollForToken "x.com" "abc" "dc" 5 5 alwaysPending 1).trace = 1) :=
  pollForToken_expires_after_bound "x.com" "abc" "dc" 5 5 alwaysPending 1
    (by decide) (by decide) (by decide) (fun _ => rfl)

/-- C2, counterexample: `interval = 2^62`, `expiresIn = 2^63 - 1`, always 403.
The claim's count is `ceil(expiresIn / interval) = 2`, but the second addition
overflows `timer` to `-2^63`, the loop goes on, and a third request is made
with no expiration error returned. -/
theorem pollForToken_expires_after_bound_counterexample :
    (1 : Int) ≤ 4611686018427387904 ∧ (1 : Int) ≤ maxInt64 ∧
      attemptBound 4611686018427387904 maxInt64 = 2 ∧
      (pollForToken "x.com" "abc" "dc" 4611686018427387904 maxInt64 alwaysPending 2).timer =
        minInt64 ∧
      (pollForToken "x.com" "abc" "dc" 4611686018427387904 maxInt64 alwaysPending 3).result =
        none ∧
      posts
        (pollForToken "x.com" "abc" "dc" 4611686018427387904 maxInt64 alwaysPending 3).trace
        = 3 := by
  refine ⟨by decide, by decide, by decide, rfl, rfl, rfl⟩

/-- C3, witness: 403 twice, then a transport error on attempt 3, with
`interval = 2` and `expiresIn = 100`: the run ends there. -/
theorem pollForToken_transport_error_aborts_witness :
    3 ≤ posts (pollForToken "x.com" "abc" "dc" 2 100 (failAt 3) 9).trace ∧
      (pollForToken "x.com" "abc" "dc" 2 100 (failAt 3) 9).result =
        some (.error .pollFailed) ∧
      posts (pollForToken "x.com" "abc" "dc" 2 100 (failAt 3) 9).trace = 3 ∧
      sleeps (pollForToken "x.com" "abc" "dc" 2 100 (failAt 3) 9).trace = 3 := by
  have hmade : 3 ≤ posts (pollForToken "x.com" "abc" "dc" 2 100 (failAt 3) 9).trace := by
    decide
  have h := pollForToken_transport_error_aborts "x.com" "abc" "dc" 2 100 (failAt 3) 3 9
    (by decide) (fun j hj => by simp [failAt, hj, forbidden, HttpOutcome.pending, statusOK])
    rfl hmade
  exact ⟨hmade, h.1, h.2.2.2.1, h.2.2.2.2.1⟩

/-- C4, witness: the run of the C1 witness returns a token set, so its fifth
request was answered 200. -/
theorem pollForToken_tokens_from_200_witness :
    ∃ (k : Nat) (resp : Response) (v : JValue) (tokenResponse : TokenResponse),
      posts (pollForToken "x.com" "abc" "dc" 2 10 (okAt 5 tokenBody) 5).trace = k + 1 ∧
      okAt 5 tokenBody k = .response resp ∧ resp.StatusCode = statusOK ∧
      resp.Body = .json v ∧ unmarshalToken v = some tokenResponse ∧
      (∀ j, j < k → (okAt 5 tokenBody j).pending = true) ∧
      (⟨"x.com", "abc", "t1", "r1", "Bearer"⟩ : TokenData).Domain = "x.com" ∧
      (⟨"x.com", "abc", "t1", "r1", "Bearer"⟩ : TokenData).ClientID = "abc" ∧
      (⟨"x.com", "abc", "t1", "r1", "Bearer"⟩ : TokenData).AccessToken =
        tokenResponse.AccessToken ∧
      (⟨"x.com", "abc", "t1", "r1", "Bearer"⟩ : TokenData).RefreshToken =
        tokenResponse.RefreshToken ∧
      (⟨"x.com", "abc", "t1", "r1", "Bearer"⟩ : TokenData).TokenType =
        tokenResponse.TokenType :=
  pollForToken_tokens_from_200 "x.com" "abc" "dc" 2 10 (okAt 5 tokenBody) 5
    ⟨"x.com", "abc", "t1", "r1", "Bearer"⟩ rfl

/-! ## The polling loop: termination -/

/-- C10 (as amended): (1) for `1 ≤ interval` and a `timer` that does not
overflow (`ceil(expiresIn / interval) * interval` within `int`), whatever the
provider answers `pollForToken` returns within
`max(0, ceil(expiresIn / interval))` requests, and when it returns the
expiration error with `1 ≤ expiresIn` the final `timer` is in
`[expiresIn, expiresIn + interval)`; (2) for `expiresIn ≤ 0` it returns the
expiration error at once, with no request and no sleep; (3) for
`interval ≤ 0`, `1 ≤ expiresIn` and a provider that never answers 200, after
`n` requests `timer` is `n * interval` and the loop is still polling, for
every `n` with `n * interval` not below the least `int`; (4) so for
`interval = 0` it never returns. -/
theorem pollForToken_termination (domain clientID deviceCode : String)
    (interval expiresIn : Int) (provider : Nat → HttpOutcome) :
    (1 ≤ interval → (attemptBound interval expiresIn : Int) * interval ≤ maxInt64 →
      (attemptBound interval expiresIn : Int) = max 0 ⌈(expiresIn : ℚ) / (interval : ℚ)⌉ ∧
      ∀ fuel, attemptBound interval expiresIn ≤ fuel →
        (pollForToken domain clientID deviceCode interval expiresIn provider fuel).result
            ≠ none ∧
          posts (pollForToken domain clientID deviceCode interval expiresIn provider
            fuel).trace ≤ attemptBound interval expiresIn ∧
          (1 ≤ expiresIn →
            (pollForToken domain clientID deviceCode interval expiresIn provider fuel).result
              = some (.error .expired) →
            expiresIn ≤
                (pollForToken domain clientID deviceCode interval expiresIn provider
                  fuel).timer ∧
              (pollForToken domain clientID deviceCode interval expiresIn provider
                fuel).timer < expiresIn + interval)) ∧
    (expiresIn ≤ 0 → ∀ fuel,
      (pollForToken domain clientID deviceCode interval expiresIn provider fuel).result =
          some (.error .expired) ∧
        (pollForToken domain clientID deviceCode interval expiresIn provider fuel).trace
          = []) ∧
    (interval ≤ 0 → 1 ≤ expiresIn → (∀ j, (provider j).pending = true) →
      ∀ n : Nat, minInt64 ≤ (n : Int) * interval →
        (pollForToken domain clientID deviceCode interval expiresIn provider n).result =
            none ∧
          posts (pollForToken domain clientID deviceCode interval expiresIn provider n).trace
            = n ∧
          (pollForToken domain clientID deviceCode interval expiresIn provider n).timer =
            n * interval) ∧
    (interval = 0 → 1 ≤ expiresIn → (∀ j, (provider j).pending = true) →
      ∀ fuel,
        (pollForToken domain clientID deviceCode interval expiresIn provider fuel).result =
          none) := by
  have part3 : interval ≤ 0 → 1 ≤ expiresIn → (∀ j, (provider j).pending = true) →
      ∀ n : Nat, minInt64 ≤ (n : Int) * interval →
        (pollForToken domain clientID deviceCode interval expiresIn provider n).result =
            none ∧
          posts (pollForToken domain clientID deviceCode interval expiresIn provider n).trace
            = n ∧
          (pollForToken domain clientID deviceCode interval expiresIn provider n).timer =
            n * interval := by
    intro hI hE hpend n hmin
    have htimer : ∀ j : Nat, j ≤ n → timerAfter interval j 0 = j * interval := by
      intro j hj
      apply timerAfter_of_nonpos interval j hI
      have : (n : Int) * interval ≤ j * interval :=
        mul_le_mul_of_nonpos_right (by exact_mod_cast hj) hI
      linarith
    have hguard : ∀ j : Nat, j ≤ n → timerAfter interval j 0 < expiresIn := by
      intro j hj
      rw [htimer j hj]
      have : (j : Int) * interval ≤ 0 :=
        mul_nonpos_of_nonneg_of_nonpos (by positivity) hI
      omega
    unfold pollForToken
    simp only []
    rw [pollLoop_pending_noFuel _ _ _ _ _ _ _ n 0 0 (fun j _ => hpend _) hguard]
    exact ⟨rfl, posts_pendingTrace _ _ _ _, htimer n (le_refl n)⟩
  refine ⟨?_, ?_, part3, ?_⟩
  · intro hI hmax
    refine ⟨attemptBound_eq_max_ceil interval expiresIn hI, ?_⟩
    intro fuel hfuel
    unfold pollForToken
    simp only []
    by_cases hE : 1 ≤ expiresIn
    · obtain ⟨_, _, h3⟩ := attemptBound_spec interval expiresIn hI hE
      have := pollLoop_terminates domain clientID
        ("https://" ++ domain ++ "/oauth/token")
        ("client_id=" ++ clientID ++
          "&grant_type=urn:ietf:params:oauth:grant-type:device_code&device_code=" ++
          deviceCode)
        interval expiresIn provider (attemptBound interval expiresIn) fuel 0 0 hI
        (by unfold minInt64; omega) (by rw [zero_add]; exact hmax)
        (by rw [zero_add]; exact h3) hfuel (by omega)
      exact ⟨this.1, this.2.1, fun _ => this.2.2.2⟩
    · rw [pollLoop_expired _ _ _ _ _ _ _ _ _ _ (by omega)]
      exact ⟨by simp, by simp [posts], fun h => absurd h hE⟩
  · intro hE fuel
    unfold pollForToken
    simp only []
    rw [pollLoop_expired _ _ _ _ _ _ _ _ _ _ (by omega)]
    exact ⟨rfl, rfl⟩
  · intro hI hE hpend fuel
    exact (part3 (by omega) hE hpend fuel (by rw [hI]; unfold minInt64; simp)).1

/-- C10, witness: `interval = 2`, `expiresIn = 5` with a transport error on
attempt 2 (return within the bound 3); `expiresIn = 0` (expiration at once);
`interval = 0` against a provider that always answers 403 (still polling after
any number of iterations). -/
theorem pollForToken_termination_witness :
    ((pollForToken "x.com" "abc" "dc" 2 5 (failAt 2) 3).result ≠ none ∧
      posts (pollForToken "x.com" "abc" "dc" 2 5 (failAt 2) 3).trace ≤ attemptBound 2 5) ∧
    ((pollForToken "x.com" "abc" "dc" 2 0 alwaysPending 7).result = some (.error .expired) ∧
      (pollForToken "x.com" "abc" "dc" 2 0 alwaysPending 7).trace = []) ∧
    ((pollForToken "x.com" "abc" "dc" (-3) 5 alwaysPending 4).result = none ∧
      posts (pollForToken "x.com" "abc" "dc" (-3) 5 alwaysPending 4).trace = 4 ∧
      (pollForToken "x.com" "abc" "dc" (-3) 5 alwaysPending 4).timer = ((4 : Nat) : Int) * -3) ∧
    (∀ fuel, (pollForToken "x.com" "abc" "dc" 0 600 alwaysPending fuel).result = none) := by
  refine ⟨?_, ?_, ?_, ?_⟩
  · have h := (pollForToken_termination "x.com" "abc" "dc" 2 5 (failAt 2)).1
      (by decide) (by decide)
    have h3 := h.2 3 (by decide)
    exact ⟨h3.1, h3.2.1⟩
  · exact (pollForToken_termination "x.com" "abc" "dc" 2 0 alwaysPending).2.1 (by decide) 7
  · exact (pollForToken_termination "x.com" "abc" "dc" (-3) 5 alwaysPending).2.2.1
      (by decide) (by decide) (fun _ => rfl) 4 (by decide)
  · exact (pollForToken_termination "x.com" "abc" "dc" 0 600 alwaysPending).2.2.2
      rfl (by decide) (fun _ => rfl)

/-- C10, counterexample: (1) `interval = 2^62 + 1`, `expiresIn = 2^63 - 1`,
always 403: the bound `ceil(expiresIn / interval)` is 2, but the second
addition overflows `timer` to a negative value and a third and a fourth request
are made with the loop still polling; (2) `interval = -(2^63 - 1)`,
`expiresIn = 1`, always 403: the second addition wraps `timer` around to 2 and
the loop returns the expiration error after 2 requests, although
`interval ≤ 0`. -/
theorem pollForToken_termination_counterexample :
    ((1 : Int) ≤ 4611686018427387905 ∧
      attemptBound 4611686018427387905 maxInt64 = 2 ∧
      (pollForToken "x.com" "abc" "dc" 4611686018427387905 maxInt64 alwaysPending 4).result =
        none ∧
      posts
        (pollForToken "x.com" "abc" "dc" 4611686018427387905 maxInt64 alwaysPending 4).trace
        = 4) ∧
    ((-9223372036854775807 : Int) ≤ 0 ∧
      (∀ j, (alwaysPending j).pending = true) ∧
      (pollForToken "x.com" "abc" "dc" (-9223372036854775807) 1 alwaysPending 2).result =
        some (.error .expired) ∧
      (pollForToken "x.com" "abc" "dc" (-9223372036854775807) 1 alwaysPending 2).timer = 2 ∧
      posts (pollForToken "x.com" "abc" "dc" (-9223372036854775807) 1 alwaysPending 2).trace
        = 2) := by
  refine ⟨⟨by decide, by decide, rfl, rfl⟩, by decide, fun _ => rfl, rfl, rfl, rfl⟩

/-! ## Writing the credential file -/

/-- C5 (as amended): `writeTokensToYaml` passes the permission bits `0o644` to
the one file write it makes: read and write for the owner, read only for the
group and read only for others (`mode AND 0o007 = 0o004`,
`mode AND 0o660 = 0o640`). -/
theorem writeTokensToYaml_mode (fsOk : String → YamlNode → Nat → Bool) (filename : String)
    (tokens : Option TokenData) :
    writeModes (writeTokensToYaml fsOk filename tokens).2 = [0o644] ∧
      0o644 &&& 0o007 = 0o004 ∧ 0o644 &&& 0o660 = 0o640 ∧ 0o644 &&& 0o600 = 0o600 := by
  refine ⟨?_, by decide, by decide, by decide⟩
  unfold writeTokensToYaml yamlMarshal
  simp only []
  split <;> rfl

/-- C5, counterexample: writing the sample token set to `tokens.yaml`, the
mode of the write has a bit for others set and lacks the write bit of the
group. -/
theorem writeTokensToYaml_mode_counterexample :
    ¬ (∀ mode ∈ writeModes (writeTokensToYaml (fun _ _ _ => true) "tokens.yaml"
        (some sampleTokens)).2, mode &&& 0o007 = 0 ∧ mode &&& 0o660 = 0o660) := by
  intro h
  have h1 := h 0o644 (by decide)
  exact absurd h1.1 (by decide)

/-- C8: for every token set, the document `writeTokensToYaml` writes has the
single top-level key `zoraauth`, under it the five fields in the order
`domain`, `clientId`, `accessToken`, `refreshToken`, `tokenType` with the
values of the token set, and re-parsing it under that key gives back the token
set.  The document is taken as its node tree. -/
theorem writeTokensToYaml_roundtrip (fsOk : String → YamlNode → Nat → Bool)
    (filename : String) (tokens : TokenData) :
    writtenDocs (writeTokensToYaml fsOk filename (some tokens)).2 =
        [.mapping
          [("zoraauth", .mapping
            [("domain", .scalar tokens.Domain),
             ("clientId", .scalar tokens.ClientID),
             ("accessToken", .scalar tokens.AccessToken),
             ("refreshToken", .scalar tokens.RefreshToken),
             ("tokenType", .scalar tokens.TokenType)])]] ∧
      (∀ doc ∈ writtenDocs (writeTokensToYaml fsOk filename (some tokens)).2,
        doc.keys = ["zoraauth"] ∧ yamlUnmarshal doc = some ⟨some tokens⟩) := by
  have hdocs : writtenDocs (writeTokensToYaml fsOk filename (some tokens)).2 =
      [.mapping
        [("zoraauth", .mapping
          [("domain", .scalar tokens.Domain),
           ("clientId", .scalar tokens.ClientID),
           ("accessToken", .scalar tokens.AccessToken),
           ("refreshToken", .scalar tokens.RefreshToken),
           ("tokenType", .scalar tokens.TokenType)])]] := by
    unfold writeTokensToYaml yamlMarshal
    simp only []
    split <;> rfl
  refine ⟨hdocs, ?_⟩
  intro doc hdoc
  rw [hdocs] at hdoc
  simp only [List.mem_singleton] at hdoc
  subst hdoc
  exact ⟨rfl, rfl⟩

/-- C8, witness: the token set `x.com` / `abc` / `t1` / `r1` / `Bearer` written
to `tokens.yaml` and read back. -/
theorem writeTokensToYaml_roundtrip_witness :
    writtenDocs (writeTokensToYaml (fun _ _ _ => true) "tokens.yaml" (some sampleTokens)).2 =
        [.mapping
          [("zoraauth", .mapping
            [("domain", .scalar "x.com"),
             ("clientId", .scalar "abc"),
             ("accessToken", .scalar "t1"),
             ("refreshToken", .scalar "r1"),
             ("tokenType", .scalar "Bearer")])]] ∧
      (∀ doc ∈ writtenDocs
          (writeTokensToYaml (fun _ _ _ => true) "tokens.yaml" (some sampleTokens)).2,
        doc.keys = ["zoraauth"] ∧ yamlUnmarshal doc = some ⟨some sampleTokens⟩) :=
  writeTokensToYaml_roundtrip (fun _ _ _ => true) "tokens.yaml" sampleTokens

/-! ## requestDeviceCode -/

/-- C7: for every response whose status is not 200, whatever its body,
`requestDeviceCode` fails with the error "unexpected response status"
carrying the status of the response, returns no device authorization, and its
only effect is the request: the body is not read. -/
theorem requestDeviceCode_unexpected_status (domain clientID audience : String)
    (resp : Response) (h : resp.StatusCode ≠ statusOK) :
    (requestDeviceCode domain clientID audience (.response resp)).1 =
        .error (.unexpectedStatus resp.Status) ∧
      (Err.unexpectedStatus resp.Status).message =
        "unexpected response status: " ++ resp.Status ∧
      (requestDeviceCode domain clientID audience (.response resp)).2 =
        [Effect.post ("https://" ++ domain ++ "/oauth/device/code") formContentType
          ("client_id=" ++ clientID ++
            "&scope=profile%20email%20offline_access%20openid&audience=" ++ audience)] ∧
      bodyReads (requestDeviceCode domain clientID audience (.response resp)).2 = 0 ∧
      (∀ body : Body,
        requestDeviceCode domain clientID audience
            (.response { resp with Body := body }) =
          requestDeviceCode domain clientID audience (.response resp)) := by
  have hreq : ∀ r : Response, r.StatusCode ≠ statusOK →
      requestDeviceCode domain clientID audience (.response r) =
        (.error (.unexpectedStatus r.Status),
          [Effect.post ("https://" ++ domain ++ "/oauth/device/code") formContentType
            ("client_id=" ++ clientID ++
              "&scope=profile%20email%20offline_access%20openid&audience=" ++ audience)]) := by
    intro r hr
    unfold requestDeviceCode
    simp [hr]
  refine ⟨by rw [hreq resp h], rfl, by rw [hreq resp h], by rw [hreq resp h]; rfl, ?_⟩
  intro body
  rw [hreq resp h, hreq { resp with Body := body } h]

/-- C7, witness: a 403 whose body is a well-formed device-code payload. -/
theorem requestDeviceCode_unexpected_status_witness :
    (requestDeviceCode "x.com" "abc" "aud"
        (.response ⟨403, "403 Forbidden", .json (.object devicePayload)⟩)).1 =
      .error (.unexpectedStatus "403 Forbidden") ∧
    bodyReads (requestDeviceCode "x.com" "abc" "aud"
        (.response ⟨403, "403 Forbidden", .json (.object devicePayload)⟩)).2 = 0 := by
  have h := requestDeviceCode_unexpected_status "x.com" "abc" "aud"
    ⟨403, "403 Forbidden", .json (.object devicePayload)⟩ (by decide)
  exact ⟨h.1, h.2.2.2.1⟩

/-! ## The entry point -/

theorem requestDeviceCode_trace (domain clientID audience : String) (outcome : HttpOutcome) :
    posts (requestDeviceCode domain clientID audience outcome).2 = 1 ∧
      sleeps (requestDeviceCode domain clientID audience outcome).2 = 0 ∧
      writeModes (requestDeviceCode domain clientID audience outcome).2 = [] := by
  unfold requestDeviceCode
  simp only []
  cases outcome with
  | failure => exact ⟨rfl, rfl, rfl⟩
  | response resp =>
    by_cases hs : resp.StatusCode = statusOK
    · simp only [hs, ne_eq, not_true_eq_false, if_false]
      cases resp.Body with
      | unreadable => exact ⟨rfl, rfl, rfl⟩
      | malformed => exact ⟨rfl, rfl, rfl⟩
      | json v =>
        simp only []
        cases unmarshalDeviceCode v <;> exact ⟨rfl, rfl, rfl⟩
    · simp only [ne_eq, hs, not_false_eq_true, if_true]
      exact ⟨rfl, rfl, rfl⟩

theorem writeModes_pendingTrace (interval : Int) (url data : String) (n : Nat) :
    writeModes (pendingTrace interval url data n) = [] := by
  induction n with
  | zero => rfl
  | succ n ih => simp [pendingTrace, writeModes, ih]

theorem pollLoop_writeModes (domain clientID url data : String) (interval expiresIn : Int)
    (provider : Nat → HttpOutcome) (fuel : Nat) (t : Int) (a : Nat) :
    writeModes (pollLoop domain clientID url data interval expiresIn provider fuel t a).trace
      = [] := by
  induction fuel generalizing t a with
  | zero =>
    by_cases hg : t < expiresIn
    · rw [pollLoop_noFuel _ _ _ _ _ _ _ _ _ hg]; rfl
    · rw [pollLoop_expired _ _ _ _ _ _ _ _ _ _ hg]; rfl
  | succ fuel ih =>
    by_cases hg : t < expiresIn
    · cases hprov : provider a with
      | failure =>
        rw [pollLoop_failure _ _ _ _ _ _ _ _ _ _ hg hprov, writeModes_pendingTrace]
      | response resp =>
        by_cases hs : resp.StatusCode = statusOK
        · rw [pollLoop]
          simp only [hg, if_true, hprov, hs]
          cases resp.Body with
          | unreadable => rfl
          | malformed => rfl
          | json v =>
            simp only []
            cases unmarshalToken v <;> rfl
        · have hp : (provider a).pending = true := by
            rw [pending_iff]; exact ⟨resp, hprov, hs⟩
          rw [pollLoop_step _ _ _ _ _ _ _ _ _ _ hg hp, writeModes_append,
            writeModes_pendingTrace, ih]
          rfl
    · rw [pollLoop_expired _ _ _ _ _ _ _ _ _ _ hg]; rfl

/-- C6: the exit code of `main` follows the first stage that fails.  It is 1
when `domain`, `clientID` or `audience` is empty, with no request, no sleep and
no file write; otherwise 1 when `requestDeviceCode` fails, with its one request
only; otherwise 2 when `pollForToken` fails, with no file write; otherwise 3
when `writeTokensToYaml` fails and 0 when it succeeds; and it is 0 exactly
when all three stages succeed. -/
theorem main_exit_code (flags : Flags) (world : World) (fuel : Nat) :
    ((flags.domain = "" ∨ flags.clientID = "" ∨ flags.audience = "") →
      (main flags world fuel).exitCode = some 1 ∧
        posts (main flags world fuel).trace = 0 ∧
        sleeps (main flags world fuel).trace = 0 ∧
        writeModes (main flags world fuel).trace = []) ∧
    (¬ (flags.domain = "" ∨ flags.clientID = "" ∨ flags.audience = "") →
      (∀ err,
        (requestDeviceCode flags.domain flags.clientID flags.audience world.deviceCode).1 =
          .error err →
        (main flags world fuel).exitCode = some 1 ∧
          posts (main flags world fuel).trace = 1 ∧
          sleeps (main flags world fuel).trace = 0 ∧
          writeModes (main flags world fuel).trace = []) ∧
      (∀ deviceInfo,
        (requestDeviceCode flags.domain flags.clientID flags.audience world.deviceCode).1 =
          .ok deviceInfo →
        (∀ err,
          (pollForToken flags.domain flags.clientID deviceInfo.DeviceCode deviceInfo.Interval
            deviceInfo.ExpiresIn world.poll fuel).result = some (.error err) →
          (main flags world fuel).exitCode = some 2 ∧
            writeModes (main flags world fuel).trace = []) ∧
        (∀ tokens,
          (pollForToken flags.domain flags.clientID deviceInfo.DeviceCode deviceInfo.Interval
            deviceInfo.ExpiresIn world.poll fuel).result = some (.ok tokens) →
          ((∀ err, (writeTokensToYaml world.fsOk flags.outputFile (some tokens)).1 =
              .error err → (main flags world fuel).exitCode = some 3) ∧
            ((writeTokensToYaml world.fsOk flags.outputFile (some tokens)).1 = .ok () →
              (main flags world fuel).exitCode = some 0))))) ∧
    ((main flags world fuel).exitCode = some 0 ↔
      ¬ (flags.domain = "" ∨ flags.clientID = "" ∨ flags.audience = "") ∧
        ∃ deviceInfo tokens,
          (requestDeviceCode flags.domain flags.clientID flags.audience world.deviceCode).1 =
            .ok deviceInfo ∧
          (pollForToken flags.domain flags.clientID deviceInfo.DeviceCode deviceInfo.Interval
            deviceInfo.ExpiresIn world.poll fuel).result = some (.ok tokens) ∧
          (writeTokensToYaml world.fsOk flags.outputFile (some tokens)).1 = .ok ()) := by
  by_cases hempty : flags.domain = "" ∨ flags.clientID = "" ∨ flags.audience = ""
  · have hm : main flags world fuel =
        ⟨some 1, [Effect.print "Error: domain, client-id, and audience must be provided.\n",
          Effect.usage]⟩ := by
      unfold main
      rw [if_pos hempty]
    rw [hm]
    refine ⟨fun _ => ⟨rfl, rfl, rfl, rfl⟩, fun h => absurd hempty h, ?_⟩
    constructor
    · intro h; simp at h
    · intro h; exact absurd hempty h.1
  · obtain ⟨hp1, hs1, hw1⟩ := requestDeviceCode_trace flags.domain flags.clientID
      flags.audience world.deviceCode
    cases hreq : requestDeviceCode flags.domain flags.clientID flags.audience
      world.deviceCode with
    | mk res tr1 =>
      rw [hreq] at hp1 hs1 hw1
      simp only at hp1 hs1 hw1
      cases res with
      | error e =>
        have hm : main flags world fuel =
            ⟨some 1, [Effect.print "Initiating Device Authorization Flow...\n"] ++ tr1 ++
              [Effect.print ("Error: " ++ e.message ++ "\n")]⟩ := by
          unfold main
          rw [if_neg hempty]
          simp only [hreq]
        rw [hm]
        refine ⟨fun h => absurd h hempty, fun _ => ⟨?_, ?_⟩, ?_⟩
        · intro err _
          refine ⟨rfl, ?_, ?_, ?_⟩
          · simp only [posts_append, hp1]; rfl
          · simp only [sleeps_append, hs1]; rfl
          · simp only [writeModes_append, hw1]; rfl
        · intro deviceInfo h; simp at h
        · constructor
          · intro h; simp at h
          · rintro ⟨_, deviceInfo, tokens, h, _⟩; simp at h
      | ok info =>
        have hwm := pollLoop_writeModes flags.domain flags.clientID
          ("https://" ++ flags.domain ++ "/oauth/token")
          ("client_id=" ++ flags.clientID ++
            "&grant_type=urn:ietf:params:oauth:grant-type:device_code&device_code=" ++
            info.DeviceCode) info.Interval info.ExpiresIn world.poll fuel 0 0
        have hwm2 : writeModes (pollForToken flags.domain flags.clientID info.DeviceCode
            info.Interval info.ExpiresIn world.poll fuel).trace = [] := hwm
        cases hpoll : (pollForToken flags.domain flags.clientID info.DeviceCode info.Interval
            info.ExpiresIn world.poll fuel).result with
        | none =>
          have hm : (main flags world fuel).exitCode = none := by
            unfold main
            rw [if_neg hempty]
            simp only [hreq, hpoll]
          refine ⟨fun h => absurd h hempty, fun _ => ⟨?_, ?_⟩, ?_⟩
          · intro err h; simp at h
          · intro deviceInfo h
            simp only [Except.ok.injEq] at h
            subst h
            refine ⟨?_, ?_⟩
            · intro err h; rw [hpoll] at h; simp at h
            · intro tokens h; rw [hpoll] at h; simp at h
          · rw [hm]
            constructor
            · intro h; simp at h
            · rintro ⟨_, deviceInfo, tokens, h1, h2, _⟩
              simp only [Except.ok.injEq] at h1
              subst h1
              rw [hpoll] at h2; simp at h2
        | some pres =>
          cases pres with
          | error e =>
            have hm : main flags world fuel =
                ⟨some 2, [Effect.print "Initiating Device Authorization Flow...\n"] ++ tr1 ++
                  [Effect.print ("Please visit " ++ info.VerificationURI ++
                    " and enter code: " ++ info.UserCode ++ ", or visit: " ++
                    info.VerificationURIComplete ++ "\n")] ++
                  (pollForToken flags.domain flags.clientID info.DeviceCode info.Interval
                    info.ExpiresIn world.poll fuel).trace ++
                  [Effect.print ("Error: " ++ e.message ++ "\n")]⟩ := by
              unfold main
              rw [if_neg hempty]
              simp only [hreq, hpoll]
            rw [hm]
            refine ⟨fun h => absurd h hempty, fun _ => ⟨?_, ?_⟩, ?_⟩
            · intro err h; simp at h
            · intro deviceInfo h
              simp only [Except.ok.injEq] at h
              subst h
              refine ⟨?_, ?_⟩
              · intro err _
                refine ⟨rfl, ?_⟩
                simp only [writeModes_append, hw1, hwm2]; rfl
              · intro tokens h; rw [hpoll] at h; simp at h
            · constructor
              · intro h; simp at h
              · rintro ⟨_, deviceInfo, tokens, h1, h2, _⟩
                simp only [Except.ok.injEq] at h1
                subst h1
                rw [hpoll] at h2; simp at h2
          | ok toks =>
            cases hwrite : writeTokensToYaml world.fsOk flags.outputFile (some toks) with
            | mk wres tr3 =>
              cases wres with
              | error e =>
                have hm : (main flags world fuel).exitCode = some 3 := by
                  unfold main
                  rw [if_neg hempty]
                  simp only [hreq, hpoll, hwrite]
                rw [hm]
                refine ⟨fun h => absurd h hempty, fun _ => ⟨?_, ?_⟩, ?_⟩
                · intro err h; simp at h
                · intro deviceInfo h
                  simp only [Except.ok.injEq] at h
                  subst h
                  refine ⟨?_, ?_⟩
                  · intro err h; rw [hpoll] at h; simp at h
                  · intro tokens h
                    rw [hpoll] at h
                    simp only [Option.some.injEq, Except.ok.injEq] at h
                    subst h
                    rw [hwrite]
                    exact ⟨fun _ _ => rfl, fun h => by simp at h⟩
                · constructor
                  · intro h; simp at h
                  · rintro ⟨_, deviceInfo, tokens, h1, h2, h3⟩
                    simp only [Except.ok.injEq] at h1
                    subst h1
                    rw [hpoll] at h2
                    simp only [Option.some.injEq, Except.ok.injEq] at h2
                    subst h2
                    rw [hwrite] at h3; simp at h3
              | ok u =>
                have hm : (main flags world fuel).exitCode = some 0 := by
                  unfold main
                  rw [if_neg hempty]
                  simp only [hreq, hpoll, hwrite]
                rw [hm]
                refine ⟨fun h => absurd h hempty, fun _ => ⟨?_, ?_⟩, ?_⟩
                · intro err h; simp at h
                · intro deviceInfo h
                  simp only [Except.ok.injEq] at h
                  subst h
                  refine ⟨?_, ?_⟩
                  · intro err h; rw [hpoll] at h; simp at h
                  · intro tokens h
                    rw [hpoll] at h
                    simp only [Option.some.injEq, Except.ok.injEq] at h
                    subst h
                    rw [hwrite]
                    exact ⟨fun err h => by simp at h, fun _ => rfl⟩
                · constructor
                  · intro _
                    exact ⟨hempty, info, toks, rfl, hpoll, by rw [hwrite]⟩
                  · intro _; rfl

/-- C6, witness: with an empty `domain` the exit code is 1 and no request is
made; in the sample world (device code granted, 200 on the fifth poll, file
written) the exit code is 0. -/
theorem main_exit_code_witness :
    ((main ⟨"", "abc", "aud", "tokens.yaml"⟩ sampleWorld 5).exitCode = some 1 ∧
      posts (main ⟨"", "abc", "aud", "tokens.yaml"⟩ sampleWorld 5).trace = 0) ∧
    (main ⟨"x.com", "abc", "aud", "tokens.yaml"⟩ sampleWorld 5).exitCode = some 0 := by
  constructor
  · have h := (main_exit_code ⟨"", "abc", "aud", "tokens.yaml"⟩ sampleWorld 5).1 (Or.inl rfl)
    exact ⟨h.1, h.2.1⟩
  · exact (main_exit_code ⟨"x.com", "abc", "aud", "tokens.yaml"⟩ sampleWorld 5).2.2.mpr
      ⟨by decide,
        ⟨"dc", "WXYZ", "https://x.com/activate", "https://x.com/activate?user_code=WXYZ",
          10, 2⟩,
        sampleTokens, rfl, rfl, rfl⟩

/-! ## Decoding the device-code payload -/

theorem payloadString_cons (f : DeviceField) (k : String) (v : JValue)
    (rest : List (String × JValue)) (old : String) :
    payloadString f ((k, v) :: rest) old =
      payloadString f rest
        (if DeviceField.lookup k = some f ∧ v.isNull = false then v.stringValue else old) := by
  unfold payloadString
  rw [lastMember]
  cases lastMember f rest with
  | some w => rfl
  | none =>
    by_cases hc : DeviceField.lookup k = some f ∧ v.isNull = false
    · simp only [hc, and_self, if_true]
    · simp only [hc, if_false]

theorem payloadInt_cons (f : DeviceField) (k : String) (v : JValue)
    (rest : List (String × JValue)) (old : Int) :
    payloadInt f ((k, v) :: rest) old =
      payloadInt f rest
        (if DeviceField.lookup k = some f ∧ v.isNull = false then v.intValue else old) := by
  unfold payloadInt
  rw [lastMember]
  cases lastMember f rest with
  | some w => rfl
  | none =>
    by_cases hc : DeviceField.lookup k = some f ∧ v.isNull = false
    · simp only [hc, and_self, if_true]
    · simp only [hc, if_false]

theorem setMember_of_ok (r : DeviceCodeResponse) (k : String) (v : JValue)
    (h : memberOk k v = true) :
    r.setMember k v = some
      { DeviceCode :=
          if DeviceField.lookup k = some .deviceCode ∧ v.isNull = false then v.stringValue
          else r.DeviceCode
        UserCode :=
          if DeviceField.lookup k = some .userCode ∧ v.isNull = false then v.stringValue
          else r.UserCode
        VerificationURI :=
          if DeviceField.lookup k = some .verificationURI ∧ v.isNull = false then v.stringValue
          else r.VerificationURI
        VerificationURIComplete :=
          if DeviceField.lookup k = some .verificationURIComplete ∧ v.isNull = false then
            v.stringValue
          else r.VerificationURIComplete
        ExpiresIn :=
          if DeviceField.lookup k = some .expiresIn ∧ v.isNull = false then v.intValue
          else r.ExpiresIn
        Interval :=
          if DeviceField.lookup k = some .interval ∧ v.isNull = false then v.intValue
          else r.Interval } := by
  unfold memberOk at h
  unfold DeviceCodeResponse.setMember
  generalize DeviceField.lookup k = l at h ⊢
  cases l with
  | none => simp
  | some f =>
    simp only [DeviceField.accepts] at h
    cases f <;> cases v with
    | null => simp [decodeString, decodeInt, JValue.isNull]
    | bool b => simp [JValue.isNull, DeviceField.isInt, JValue.isInt64, JValue.isString] at h
    | array a => simp [JValue.isNull, DeviceField.isInt, JValue.isInt64, JValue.isString] at h
    | object o => simp [JValue.isNull, DeviceField.isInt, JValue.isInt64, JValue.isString] at h
    | string s =>
      first
        | (simp [JValue.isNull, DeviceField.isInt, JValue.isInt64, JValue.isString] at h; done)
        | simp [decodeString, JValue.isNull, JValue.stringValue]
    | number n =>
      cases n with
      | fractional =>
        simp [JValue.isNull, DeviceField.isInt, JValue.isInt64, JValue.isString] at h
      | integer z =>
        first
          | (simp [JValue.isNull, DeviceField.isInt, JValue.isInt64, JValue.isString] at h; done)
          | (simp only [JValue.isNull, DeviceField.isInt, JValue.isInt64, Bool.false_or,
              if_true, decide_eq_true_eq] at h
             simp [decodeInt, h, JValue.isNull, JValue.intValue])

theorem setMember_of_not_ok (r : DeviceCodeResponse) (k : String) (v : JValue)
    (h : memberOk k v = false) : r.setMember k v = none := by
  unfold memberOk at h
  unfold DeviceCodeResponse.setMember
  generalize DeviceField.lookup k = l at h ⊢
  cases l with
  | none => simp at h
  | some f =>
    simp only [DeviceField.accepts] at h
    cases f <;> cases v with
    | null => simp [JValue.isNull] at h
    | bool b => simp [decodeString, decodeInt]
    | array a => simp [decodeString, decodeInt]
    | object o => simp [decodeString, decodeInt]
    | string s =>
      first
        | (simp [JValue.isNull, DeviceField.isInt, JValue.isInt64, JValue.isString] at h; done)
        | simp [decodeInt]
    | number n =>
      cases n with
      | fractional => simp [decodeString, decodeInt]
      | integer z =>
        first
          | (simp [decodeString]; done)
          | (simp only [JValue.isNull, DeviceField.isInt, JValue.isInt64, Bool.false_or,
              if_true, decide_eq_false_iff_not] at h
             simp [decodeInt, h])

theorem wellTyped_cons (k : String) (v : JValue) (rest : List (String × JValue)) :
    wellTyped ((k, v) :: rest) = (memberOk k v && wellTyped rest) := by
  simp [wellTyped, List.all_cons]

theorem setMembers_of_wellTyped (ms : List (String × JValue)) (r : DeviceCodeResponse)
    (h : wellTyped ms = true) :
    DeviceCodeResponse.setMembers ms r = some
      { DeviceCode := payloadString .deviceCode ms r.DeviceCode
        UserCode := payloadString .userCode ms r.UserCode
        VerificationURI := payloadString .verificationURI ms r.VerificationURI
        VerificationURIComplete :=
          payloadString .verificationURIComplete ms r.VerificationURIComplete
        ExpiresIn := payloadInt .expiresIn ms r.ExpiresIn
        Interval := payloadInt .interval ms r.Interval } := by
  induction ms generalizing r with
  | nil => rfl
  | cons m rest ih =>
    obtain ⟨k, v⟩ := m
    rw [wellTyped_cons, Bool.and_eq_true] at h
    rw [DeviceCodeResponse.setMembers, setMember_of_ok r k v h.1]
    simp only []
    rw [ih _ h.2]
    simp only [payloadString_cons, payloadInt_cons]

theorem setMembers_of_not_wellTyped (ms : List (String × JValue)) (r : DeviceCodeResponse)
    (h : wellTyped ms = false) : DeviceCodeResponse.setMembers ms r = none := by
  induction ms generalizing r with
  | nil => simp [wellTyped] at h
  | cons m rest ih =>
    obtain ⟨k, v⟩ := m
    rw [wellTyped_cons] at h
    rw [DeviceCodeResponse.setMembers]
    cases hk : memberOk k v with
    | false => rw [setMember_of_not_ok r k v hk]
    | true =>
      rw [setMember_of_ok r k v hk]
      simp only []
      rw [hk, Bool.true_and] at h
      exact ih _ h

/-- C9 (as amended): for a 200 response whose body is a JSON object, if every
member named like a field (case-insensitively) is `null` or has the JSON type
of that field (a string for the four string fields, an integer literal within
the range of `int` for `expires_in` and `interval`), then `requestDeviceCode`
returns a device authorization in which each field is the value of the last
such non-null member and is the empty string or 0 when there is none; if some
such member has another type, it fails with "failed to parse JSON response". -/
theorem requestDeviceCode_decodes_payload (domain clientID audience : String)
    (resp : Response) (ms : List (String × JValue))
    (hs : resp.StatusCode = statusOK) (hb : resp.Body = .json (.object ms)) :
    (wellTyped ms = true →
      (requestDeviceCode domain clientID audience (.response resp)).1 =
        .ok
          { DeviceCode := payloadString .deviceCode ms ""
            UserCode := payloadString .userCode ms ""
            VerificationURI := payloadString .verificationURI ms ""
            VerificationURIComplete := payloadString .verificationURIComplete ms ""
            ExpiresIn := payloadInt .expiresIn ms 0
            Interval := payloadInt .interval ms 0 }) ∧
    (wellTyped ms = false →
      (requestDeviceCode domain clientID audience (.response resp)).1 =
        .error .parseFailed) := by
  constructor
  · intro h
    unfold requestDeviceCode
    simp only [hs, ne_eq, not_true_eq_false, if_false, hb, unmarshalDeviceCode]
    rw [setMembers_of_wellTyped ms _ h]
    rfl
  · intro h
    unfold requestDeviceCode
    simp only [hs, ne_eq, not_true_eq_false, if_false, hb, unmarshalDeviceCode]
    rw [setMembers_of_not_wellTyped ms _ h]

/-- C9, witness: the payload of an OAuth provider (with the member names
`verification_uri` and `verification_uri_complete` in lower case) is decoded
field by field; a payload with the only member `device_code` leaves the other
strings empty and the two integers 0. -/
theorem requestDeviceCode_decodes_payload_witness :
    (requestDeviceCode "x.com" "abc" "aud"
        (.response ⟨200, "200 OK", .json (.object devicePayload)⟩)).1 =
      .ok
        { DeviceCode := "dc"
          UserCode := "WXYZ"
          VerificationURI := "https://x.com/activate"
          VerificationURIComplete := "https://x.com/activate?user_code=WXYZ"
          ExpiresIn := 10
          Interval := 2 } ∧
    (requestDeviceCode "x.com" "abc" "aud"
        (.response ⟨200, "200 OK", .json (.object [("device_code", .string "dc")])⟩)).1 =
      .ok
        { DeviceCode := "dc"
          UserCode := ""
          VerificationURI := ""
          VerificationURIComplete := ""
          ExpiresIn := 0
          Interval := 0 } :=
  ⟨(requestDeviceCode_decodes_payload "x.com" "abc" "aud"
      ⟨200, "200 OK", .json (.object devicePayload)⟩ devicePayload rfl rfl).1 rfl,
    (requestDeviceCode_decodes_payload "x.com" "abc" "aud"
      ⟨200, "200 OK", .json (.object [("device_code", .string "dc")])⟩
      [("device_code", .string "dc")] rfl rfl).1 rfl⟩

/-- C9, counterexample: a 200 response whose body is the well-formed JSON
object with the single member `interval` holding the string `5` raises the
error "failed to parse JSON response" and yields no device authorization. -/
theorem requestDeviceCode_decodes_payload_counterexample :
    (requestDeviceCode "x.com" "abc" "aud"
        (.response ⟨200, "200 OK", .json (.object [("interval", .string "5")])⟩)).1 =
      .error .parseFailed := rfl

end ZoraAuth
